import Mathlib

/-!
# queue-smtp-mailer: shallow embedding and verified properties

The worker drains an email queue: `connector` keeps the broker connection,
`Poller` pulls bounded batches, `process` decodes one delivery with
`toEmailMessage`, sends it with `SendMail` and acknowledges it.

Go maps are association lists given in the order in which `range` visits them,
so a statement over all lists covers every iteration order.  Go `int` options
are `Int`; a pointer that may be nil is an `Option`.
-/

namespace QueueSmtpMailer

/-! ## Go values and results -/

/-- A value produced by `encoding/json` when decoding into `interface{}`. -/
inductive Value where
  | null
  | bool (b : Bool)
  | number (n : Int)
  | string (s : String)
  | array (xs : List Value)
  | object (m : List (String × Value))

/-- Result of a Go call of type `(T, error)` that may also panic. -/
inductive Result (α : Type) where
  | ok (a : α)
  | err (e : String)
  | panic (e : String)
  deriving DecidableEq, Repr

/-- Lower-casing of one character (ASCII letters). -/
def lowerChar (c : Char) : Char :=
  if 65 ≤ c.toNat ∧ c.toNat ≤ 90 then Char.ofNat (c.toNat + 32) else c

/-- The function `strings.ToLower`, on the ASCII letters; other characters are kept,
while the Go function also folds the upper-case letters outside ASCII.  The only such
letters that fold to an ASCII letter fold to `i` or `k`, which occur in no field name,
so a key is a field name here exactly when it is one in the source; two keys with
letters outside ASCII can fall together in the source and stay apart here.  The
theorems use of this function that it is idempotent, which the Go function is too. -/
def ToLower (s : String) : String :=
  String.mk (s.data.map lowerChar)

/-- The predicate `unicode.IsSpace`: the characters that `strings.TrimSpace` removes. -/
def isSpace (c : Char) : Bool :=
  let n := c.toNat
  (9 ≤ n && n ≤ 13) || n == 32 || n == 133 || n == 160 || n == 5760 ||
  (8192 ≤ n && n ≤ 8202) || n == 8232 || n == 8233 || n == 8239 || n == 8287 || n == 12288

/-- The function `strings.TrimSpace`: leading and trailing white space removed. -/
def TrimSpace (s : String) : String :=
  String.mk ((s.data.dropWhile isSpace).reverse.dropWhile isSpace).reverse

/-- Assignment `m[k] = v` on a Go map: the entry for `k` is replaced. -/
def mapSet {β : Type} (k : String) (v : β) (m : List (String × β)) : List (String × β) :=
  (k, v) :: m.filter (fun e => e.1 != k)

/-- Read `m[k]` on a Go map. -/
def mapGet {β : Type} (k : String) (m : List (String × β)) : Option β :=
  m.lookup k

/-! ## The email command (`messages.EmailMessage`) -/

/-- Modelled from the spec: the type `messages.EmailMessage` of the package
`github.com/objectvault/queue-interface`, which is not among the sources.  Section 3
of the spec gives its fields: `to`, `from`, `cc`, `bcc`, `template`, `locale` and the
two string mappings `headers` and `params`. -/
structure EmailMessage where
  template : String := ""
  locale : String := ""
  to_ : String := ""
  from_ : String := ""
  cc : String := ""
  bcc : String := ""
  headers : List (String × String) := []
  params : List (String × String) := []
  deriving DecidableEq, Repr

/-- Modelled from the spec: what a field setter of `messages.EmailMessage` does with a
string.  The stored value is the trimmed input in its original case.  The spec does not
say whether a setter itself refuses a value that is empty after trimming or leaves that
to `IsValid`; `strict = true` is the first reading and `strict = false` the second. -/
def setterValue (strict : Bool) (field : String) (s : String) : Except String String :=
  let t := TrimSpace s
  if strict && t == "" then .error ("Missing Value for " ++ field) else .ok t

namespace EmailMessage

/-- Modelled from the spec: `SetTemplate` of `messages.EmailMessage`. -/
def SetTemplate (m : EmailMessage) (strict : Bool) (s : String) : Except String EmailMessage :=
  (setterValue strict "template" s).map (fun t => { m with template := t })

/-- Modelled from the spec: `SetLanguage` of `messages.EmailMessage`. -/
def SetLanguage (m : EmailMessage) (strict : Bool) (s : String) : Except String EmailMessage :=
  (setterValue strict "locale" s).map (fun t => { m with locale := t })

/-- Modelled from the spec: `SetTo` of `messages.EmailMessage`. -/
def SetTo (m : EmailMessage) (strict : Bool) (s : String) : Except String EmailMessage :=
  (setterValue strict "to" s).map (fun t => { m with to_ := t })

/-- Modelled from the spec: `SetFrom` of `messages.EmailMessage`. -/
def SetFrom (m : EmailMessage) (strict : Bool) (s : String) : Except String EmailMessage :=
  (setterValue strict "from" s).map (fun t => { m with from_ := t })

/-- Modelled from the spec: `SetCC` of `messages.EmailMessage`. -/
def SetCC (m : EmailMessage) (strict : Bool) (s : String) : Except String EmailMessage :=
  (setterValue strict "cc" s).map (fun t => { m with cc := t })

/-- Modelled from the spec: `SetBCC` of `messages.EmailMessage`. -/
def SetBCC (m : EmailMessage) (strict : Bool) (s : String) : Except String EmailMessage :=
  (setterValue strict "bcc" s).map (fun t => { m with bcc := t })

/-- Modelled from the spec: `SetParameter` of `messages.EmailMessage`; the entry is
merged into `params`, last write wins. -/
def SetParameter (m : EmailMessage) (k v : String) : Except String EmailMessage :=
  .ok { m with params := mapSet k v m.params }

/-- Modelled from the spec: `SetHeader` of `messages.EmailMessage`; the entry is merged
into `headers`, last write wins. -/
def SetHeader (m : EmailMessage) (k v : String) : Except String EmailMessage :=
  .ok { m with headers := mapSet k v m.headers }

/-- Modelled from the spec: `IsValid` of `messages.EmailMessage`; a command is valid
only if `template`, `to` and `from` are all non-empty. -/
def IsValid (m : EmailMessage) : Bool :=
  m.template != "" && m.to_ != "" && m.from_ != ""

end EmailMessage

/-! ## poller/process.go -/

/-- The function `setEmailMaps`: every entry of `s` is stored under its lower-cased key,
in `params` or in `headers` according to `d`.  For `d = "params"` the value goes through
the single-result assertion `v.(string)`, which panics on a value that is not a string;
for `d = "headers"` such a value is skipped. -/
def setEmailMaps (message : EmailMessage) (s : List (String × Value)) (d : String) :
    Result EmailMessage :=
  match s with
  | [] => .ok message
  | (k, v) :: rest =>
    let k := ToLower k
    if d = "params" then
      match v with
      | .string x =>
        match message.SetParameter k x with
        | .ok m => setEmailMaps m rest d
        | .error e => .err e
      | _ => .panic "interface conversion: interface is not string"
    else if d = "headers" then
      match v with
      | .string x =>
        match message.SetHeader k x with
        | .ok m => setEmailMaps m rest d
        | .error e => .err e
      | _ => setEmailMaps message rest d
    else setEmailMaps message rest d

/-- Lift a setter result into the loop state of `toEmailMessage`. -/
def afterSetter (r : Except String EmailMessage) (params : List (String × Value)) :
    Result (EmailMessage × List (String × Value)) :=
  match r with
  | .ok m => .ok (m, params)
  | .error e => .err e

/-- Lift a `setEmailMaps` result into the loop state of `toEmailMessage`. -/
def afterMaps (r : Result EmailMessage) (params : List (String × Value)) :
    Result (EmailMessage × List (String × Value)) :=
  match r with
  | .ok m => .ok (m, params)
  | .err e => .err e
  | .panic e => .panic e

/-- The `switch k` of `toEmailMessage` for one entry `(k, v)`, `k` already lower-cased.
The state is the message under construction and the local map `params`. -/
def switchField (strict : Bool) (k : String) (v : Value) (message : EmailMessage)
    (params : List (String × Value)) : Result (EmailMessage × List (String × Value)) :=
  if k = "template" then
    match v with
    | .string s => afterSetter (message.SetTemplate strict s) params
    | _ => .err "Invalid Value for template field"
  else if k = "locale" then
    match v with
    | .string s => afterSetter (message.SetLanguage strict s) params
    | _ => .err "Invalid Value for locale field"
  else if k = "to" then
    match v with
    | .string s => afterSetter (message.SetTo strict s) params
    | _ => .err "Invalid Value for to field"
  else if k = "from" then
    match v with
    | .string s => afterSetter (message.SetFrom strict s) params
    | _ => .err "Invalid Value for from field"
  else if k = "cc" then
    match v with
    | .string s => afterSetter (message.SetCC strict s) params
    | _ => .err "Invalid Value for cc field"
  else if k = "bcc" then
    match v with
    | .string s => afterSetter (message.SetBCC strict s) params
    | _ => .err "Invalid Value for bcc field"
  else if k = "params" then
    match v with
    | .object m => afterMaps (setEmailMaps message m "params") params
    | _ => .err "Invalid Value for params field"
  else if k = "headers" then
    match v with
    | .object m => afterMaps (setEmailMaps message m "headers") params
    | _ => .err "Invalid Value for headers field"
  else
    match v with
    | .string s => .ok (message, mapSet k (Value.string s) params)
    | _ => .ok (message, params)

/-- The `for k, v := range *source` loop of `toEmailMessage`; it returns at the first
entry that leaves `err` set. -/
def toEmailMessageLoop (strict : Bool) (source : List (String × Value))
    (message : EmailMessage) (params : List (String × Value)) :
    Result (EmailMessage × List (String × Value)) :=
  match source with
  | [] => .ok (message, params)
  | (k, v) :: rest =>
    match switchField strict (ToLower k) v message params with
    | .ok (m, p) => toEmailMessageLoop strict rest m p
    | .err e => .err e
    | .panic e => .panic e

/-- The function `toEmailMessage`: the loop over the payload, then the local `params`
map is stored with `setEmailMaps`, then `IsValid` decides.  The keys of the local map
are distinct, so the order in which the second pass visits it does not change the
mapping it leaves in the command. -/
def toEmailMessage (strict : Bool) (source : List (String × Value)) : Result EmailMessage :=
  match toEmailMessageLoop strict source {} [] with
  | .ok (message, params) =>
    match setEmailMaps message params "params" with
    | .ok message =>
      if !message.IsValid then .err "Invalid Email Message Request" else .ok message
    | .err e => .err e
    | .panic e => .panic e
  | .err e => .err e
  | .panic e => .panic e

/-! ## config/config.go -/

/-- Modelled from the spec: the type `shared.Server` of `queue-interface`, a relay or
broker address (`host`, `port`). -/
structure Server where
  Host : String := ""
  Port : Int := 0
  deriving DecidableEq, Repr

/-- Modelled from the spec: the type `shared.Queue` of `queue-interface`, the broker
addresses (`servers`) and the `queue-prefix`. -/
structure Queue where
  Servers : List Server := []
  QueuePrefix : String := ""
  deriving DecidableEq, Repr

/-- The struct `Paths`. -/
structure Paths where
  Templates : String := ""
  Output : String := ""
  Temporary : String := ""
  deriving DecidableEq, Repr

/-- The struct `Authentication`. -/
structure Authentication where
  User : String := ""
  Password : String := ""
  deriving DecidableEq, Repr

/-- The struct `SMTPRelay`. -/
structure SMTPRelay where
  Server : Option Server := none
  Authentication : Option Authentication := none
  deriving DecidableEq, Repr

/-- The struct `Options`; an option absent from the file keeps Go's zero value. -/
structure Options where
  ConnectionRetriesMax : Int := 0
  ConnectionRetryInterval : Int := 0
  PollMaxMessages : Int := 0
  PollInterval : Int := 0
  PollQueue : String := ""
  deriving DecidableEq, Repr

/-- The struct `DaemonConfig`; each block is a pointer, nil when the file omits it. -/
structure DaemonConfig where
  Queue : Option Queue := none
  SMTPRelay : Option SMTPRelay := none
  Paths : Option Paths := none
  Options : Option Options := none
  deriving DecidableEq, Repr

/-- What `os.Stat` reports for a path. -/
inductive Stat where
  | notExist
  | failed
  | dir
  | file
  deriving DecidableEq, Repr

/-- The file system as `Load` and `templatePath` see it: `readFile` is `os.Open`
(none when it fails), `decode` is the JSON decoding of the content into a
`DaemonConfig` (none when it fails), `stat` is `os.Stat` and `abs` is `filepath.Abs`. -/
structure FileSystem where
  readFile : String → Option String
  decode : String → Option DaemonConfig
  stat : String → Stat
  abs : String → String

/-- The default settings of `Load` on the `options` block, after the queue name is
checked. -/
def applyOptionDefaults (o : Options) : Options :=
  let o := if o.ConnectionRetryInterval ≤ 0 then { o with ConnectionRetryInterval := 60 } else o
  let o := if o.PollMaxMessages ≤ 1 then { o with PollMaxMessages := 10 } else o
  let o := if o.PollInterval ≤ 0 then { o with PollInterval := 10 } else o
  o

/-- The function `Load`.  With a stat error other than not-exist the `FileInfo` is
nil and `i.IsDir()` panics. -/
def Load (fs : FileSystem) (path : String) : Result DaemonConfig :=
  match fs.readFile path with
  | none => .err "ERROR: Configuration File Required"
  | some content =>
    match fs.decode content with
    | none => .err "ERROR: Invalid Configuration File"
    | some config =>
      if config.Queue.all (fun q => q.Servers.length == 0) then
        .err "ERROR: Invalid Configuration File"
      else if config.SMTPRelay.all (fun r => r.Server.isNone) then
        .err "ERROR: Invalid Configuration File"
      else
        let paths : Paths := config.Paths.getD { Templates := "./templates" }
        if paths.Templates = "" then .err "ERROR: Invalid Configuration File"
        else
          match fs.stat paths.Templates with
          | .failed => .panic "nil pointer dereference"
          | .notExist => .err "ERROR: Invalid Configuration File"
          | .file => .err "ERROR: Invalid Configuration File"
          | .dir =>
            match config.Options with
            | none => .err "ERROR: Invalid Configuration File"
            | some o =>
              if o.PollQueue = "" then .err "ERROR: Invalid Configuration File"
              else
                .ok { config with
                  Paths := some { paths with Templates := fs.abs paths.Templates }
                  Options := some (applyOptionDefaults o) }

/-! ## mailer/mailer.go -/

/-- The function `templatePath`: the template file of kind `t` for `name`, or the
empty string when it does not exist or is a directory; `filepath.Join` is the
concatenation with a separator.  The call panics when `c.Paths` is nil, or on a stat
error that leaves the `FileInfo` nil. -/
def templatePath (fs : FileSystem) (c : DaemonConfig) (name t : String) : Result String :=
  match c.Paths with
  | none => .panic "nil pointer dereference"
  | some p =>
    let path := p.Templates ++ "/" ++ name ++ "." ++ t ++ ".template"
    match fs.stat path with
    | .notExist => .ok ""
    | .failed => .panic "nil pointer dereference"
    | .dir => .ok ""
    | .file => .ok path

/-- The outside of one `process` call: the setter reading of the absent `messages`
package, `UnmarshalJSON` of `messages.QueueMessage` (none when it returns an error,
otherwise the identifier and what `Message()` returns: a pointer to the payload, nil
when the envelope holds none), the file system and `email.Send()` of mailyak (none when
it returns no error).  The error of `d.Ack(false)` is only logged by `process` and is
not part of the model. -/
structure World where
  strict : Bool
  unmarshal : String → Option (String × Option Value)
  fs : FileSystem
  send : EmailMessage → Option String

/-- The function `SendMail`: `getSMTPConnection` reads `c.SMTPRelay.Server.Host` (a nil
dereference when the relay block or its server is absent), both template paths are
looked up, the call fails when neither exists, otherwise the message is rendered
(render errors are dropped by the source) and sent. -/
def SendMail (W : World) (c : DaemonConfig) (msg : EmailMessage) : Result Unit :=
  match c.SMTPRelay.bind (fun r => r.Server) with
  | none => .panic "nil pointer dereference"
  | some _ =>
    match templatePath W.fs c msg.template "text" with
    | .panic e => .panic e
    | .err e => .err e
    | .ok textTemplate =>
      match templatePath W.fs c msg.template "html" with
      | .panic e => .panic e
      | .err e => .err e
      | .ok htmlTemplate =>
        if textTemplate = "" ∧ htmlTemplate = "" then
          .err ("Invalid Template [" ++ msg.template ++ "]")
        else
          match W.send msg with
          | some e => .err e
          | none => .ok ()

/-! ## poller/process.go: one delivery -/

/-- The fields of `amqp.Delivery` that `process` reads. -/
structure Delivery where
  MessageId : String := ""
  Body : String := ""
  deriving DecidableEq, Repr

/-- Modelled from the spec: the type `messages.QueueMessage` of `queue-interface`, the
envelope: a message identifier and the decoded payload.  The method `Message()` returns
a pointer, `*interface{}`; `message` is that pointer, none when it is nil. -/
structure QueueMessage where
  id : String
  message : Option Value

/-- The function `extractEmailMesssage`: the pair `(message, err)` it returns; the
message is nil exactly when decoding fails. -/
def extractEmailMesssage (W : World) (msg : Delivery) : Option QueueMessage × Option String :=
  match W.unmarshal msg.Body with
  | none => (none, some "Error Decoding Email Request")
  | some (id, payload) => (some { id := id, message := payload }, none)

/-- What one run of `process` did: how often it called `d.Ack`, and how it ended
(`ok` is a nil error). -/
structure ProcessRun where
  acks : Nat
  result : Result Unit
  deriving DecidableEq, Repr

/-- The function `process`.  After `extractEmailMesssage` the error is only logged:
there is no return, and `msg.ID()` is called on the message even when it is nil.  The
pointer `i` that `msg.Message()` returns is dereferenced without a nil check in
`(*i).(map[string]interface{})`. -/
def process (W : World) (c : DaemonConfig) (d : Delivery) : ProcessRun :=
  match extractEmailMesssage W d with
  | (none, _) => { acks := 0, result := .panic "nil pointer dereference" }
  | (some msg, _) =>
    match msg.message with
    | none => { acks := 0, result := .panic "nil pointer dereference" }
    | some (.object s) =>
      match toEmailMessage W.strict s with
      | .err e => { acks := 0, result := .err e }
      | .panic e => { acks := 0, result := .panic e }
      | .ok emailMessage =>
        match SendMail W c emailMessage with
        | .err e => { acks := 0, result := .err e }
        | .panic e => { acks := 0, result := .panic e }
        | .ok _ => { acks := 1, result := .ok () }
    | _ => { acks := 0, result := .err "Invalid Massage Format" }

/-! ## poller/poller.go -/

/-- What one call `mailerMQ.QueueRetrieve("read", name)` returns: an error, no
delivery (the queue is empty), or a delivery. -/
inductive Retrieval where
  | error
  | empty
  | message (d : Delivery)
  deriving DecidableEq, Repr

/-- The variables of `Poller` and what it did so far: the error counter, the queue
name of every retrieval that returned (oldest first), the deliveries handed to
`go process`, and the number of sleeps. -/
structure PollerState where
  errorCount : Nat := 0
  queues : List String := []
  started : List Delivery := []
  sleeps : Nat := 0
  deriving DecidableEq, Repr

/-- How the inner `for` loop of `Poller` ends: the error ceiling is passed (the
function returns), the next retrieval has not returned within the given results, or
the loop is left (the counter `i` reached `maxMessages`, or the queue was empty). -/
inductive BatchExit where
  | tooManyErrors
  | blocked
  | done
  deriving DecidableEq, Repr

/-- The inner loop `for i := 0; i < maxMessages; i++` of `Poller`, with `slots`
iterations left.  The `continue` after an error goes through `i++` like every other
iteration. -/
def batch (name : String) :
    Nat → PollerState → List Retrieval → BatchExit × PollerState × List Retrieval
  | 0, st, rs => (.done, st, rs)
  | _ + 1, st, [] => (.blocked, st, [])
  | slots + 1, st, r :: rs =>
    let st := { st with queues := st.queues ++ [name] }
    match r with
    | .error =>
      let st := { st with errorCount := st.errorCount + 1 }
      if st.errorCount > 10 then (.tooManyErrors, st, rs) else batch name slots st rs
    | .empty => (.done, { st with errorCount := 0 }, rs)
    | .message d =>
      batch name slots { st with errorCount := 0, started := st.started ++ [d] } rs

/-- How a run of `Poller` ends: it returns for too many errors, it returns because
`Shutdown` is set, it waits in a retrieval that has not returned, it is still looping
when the cycles given to the run are used up, or it panics. -/
inductive PollerExit where
  | tooManyErrors
  | stopped
  | blocked
  | running
  | panicked
  deriving DecidableEq, Repr

/-- The endless loop of `Poller`, for at most `fuel` cycles; `shutdown k` is the value
of the flag `Shutdown` at the top of cycle `k`. -/
def pollerLoop (name : String) (maxMessages : Int) (shutdown : Nat → Bool) :
    Nat → Nat → PollerState → List Retrieval → PollerExit × PollerState
  | 0, _, st, _ => (.running, st)
  | fuel + 1, cycle, st, rs =>
    if shutdown cycle then (.stopped, st)
    else
      match batch name maxMessages.toNat st rs with
      | (.tooManyErrors, st, _) => (.tooManyErrors, st)
      | (.blocked, st, _) => (.blocked, st)
      | (.done, st, rs) =>
        pollerLoop name maxMessages shutdown fuel (cycle + 1)
          { st with sleeps := st.sleeps + 1 } rs

/-- The function `Poller` on the retrieval results `rs`, for at most `fuel` cycles.
The queue name is the constant of the source, `name := "inbox"`. -/
def Poller (c : DaemonConfig) (shutdown : Nat → Bool) (rs : List Retrieval) (fuel : Nat) :
    PollerExit × PollerState :=
  match c.Options with
  | none => (.panicked, {})
  | some o =>
    let maxMessages := o.PollMaxMessages
    let name := "inbox"
    pollerLoop name maxMessages shutdown fuel 0 {} rs

/-! ## connector.go -/

/-- One iteration of the loop of `connector` as the outside decides it: whether the
flag `poller.Shutdown` is found set at the top (the signal handler sets it), and
whether `OpenConnection` returns no error. -/
structure Attempt where
  shutdown : Bool := false
  connected : Bool
  deriving DecidableEq, Repr

/-- How a run of `connector` ends: it sets `Shutdown` itself because the retries are
used up, it finds the flag set, it is still looping after the given attempts, or it
panics. -/
inductive ConnectorExit where
  | retriesExceeded
  | stopped
  | running
  | panicked
  deriving DecidableEq, Repr

/-- The variables of `connector` and what it did: the error counter, the number of
`OpenConnection` calls, the number of `poller.Poller` runs, and the flag. -/
structure ConnectorState where
  errorCount : Nat := 0
  attempts : Nat := 0
  pollerRuns : Nat := 0
  Shutdown : Bool := false
  deriving DecidableEq, Repr

/-- The endless loop of `connector`.  A successful connect resets the counter and runs
`poller.Poller` until it returns; the retry check follows in both cases. -/
def connectorLoop (maxRetries : Int) :
    ConnectorState → List Attempt → ConnectorExit × ConnectorState
  | st, [] => (.running, st)
  | st, a :: rest =>
    if a.shutdown then (.stopped, { st with Shutdown := true })
    else
      let st := { st with errorCount := st.errorCount + 1, attempts := st.attempts + 1 }
      let st := if a.connected then { st with errorCount := 0, pollerRuns := st.pollerRuns + 1 }
        else st
      if maxRetries > 0 ∧ (st.errorCount : Int) > maxRetries then
        (.retriesExceeded, { st with Shutdown := true })
      else connectorLoop maxRetries st rest

/-- The function `connector` on the given attempts. -/
def connector (c : DaemonConfig) (attempts : List Attempt) : ConnectorExit × ConnectorState :=
  match c.Options with
  | none => (.panicked, {})
  | some o =>
    let maxRetries := o.ConnectionRetriesMax
    connectorLoop maxRetries {} attempts

/-- The attempts of a run in which no signal arrives, from the connect outcomes
(`true` is a successful connect). -/
def quietAttempts (outcomes : List Bool) : List Attempt :=
  outcomes.map (fun b => { connected := b })

/-! ## Reference notions of the claims -/

/-- The number of consecutive elements at the end of `l` that satisfy `p`: the length
of the run of failures since the start or since the last success. -/
def trailing {α : Type} (p : α → Bool) (l : List α) : Nat :=
  (l.reverse.takeWhile p).length

/-- A retrieval that returned an error. -/
def Retrieval.isError : Retrieval → Bool
  | .error => true
  | _ => false

/-- A counter of consecutive failures with a ceiling, read off a list: the counter
goes up on an element that satisfies `p` and back to zero on any other; the run stops
at the first element that takes it past `limit`.  The result is whether it stopped, the
counter and the number of elements read. -/
def scan {α : Type} (p : α → Bool) (limit : Nat) : Nat → Nat → List α → Bool × Nat × Nat
  | e, n, [] => (false, e, n)
  | e, n, a :: l =>
    if p a then
      if e + 1 > limit then (true, e + 1, n + 1) else scan p limit (e + 1) (n + 1) l
    else scan p limit 0 (n + 1) l

/-! ## Concrete inputs -/

/-- A configuration whose `conn-max-retries` is `m`, with the other options as `Load`
leaves them. -/
def retryConfig (m : Int) : DaemonConfig :=
  { Options := some { ConnectionRetriesMax := m, ConnectionRetryInterval := 60,
                      PollMaxMessages := 10, PollInterval := 10, PollQueue := "mail" } }

/-- The configuration file of the examples as the JSON decoder delivers it: one broker,
a relay, no `paths` block, `poll-queue` set to `mail` and `poll-max-messages` set to 1;
the other options are absent. -/
def sampleFileConfig : DaemonConfig :=
  { Queue := some { Servers := [{ Host := "mq.local", Port := 5672 }] }
    SMTPRelay := some { Server := some { Host := "smtp.local", Port := 25 } }
    Options := some { PollMaxMessages := 1, PollQueue := "mail" } }

/-- A file system for the examples: the configuration file `./mailer.json`, the template
directory and in it the text template of `welcome`. -/
def sampleFS : FileSystem :=
  { readFile := fun p => if p = "./mailer.json" then some "mailer.json content" else none
    decode := fun content =>
      if content = "mailer.json content" then some sampleFileConfig else none
    stat := fun p =>
      if p = "./templates" then Stat.dir
      else if p = "/srv/templates" then Stat.dir
      else if p = "/srv/templates/welcome.text.template" then Stat.file
      else Stat.notExist
    abs := fun p => if p = "./templates" then "/srv/templates" else p }

/-- The configuration that `Load` returns for the file of the examples. -/
def sampleConfig : DaemonConfig :=
  { Queue := some { Servers := [{ Host := "mq.local", Port := 5672 }] }
    SMTPRelay := some { Server := some { Host := "smtp.local", Port := 25 } }
    Paths := some { Templates := "/srv/templates" }
    Options := some { ConnectionRetriesMax := 0, ConnectionRetryInterval := 60,
                      PollMaxMessages := 10, PollInterval := 10, PollQueue := "mail" } }

/-- The payload of the end-to-end scenario of the spec. -/
def welcomePayload : List (String × Value) :=
  [("template", .string "welcome"), ("to", .string "a@x.com"), ("from", .string "b@x.com"),
   ("Locale", .string "en"), ("extra", .string "v1")]

/-- A world for the examples: the body `welcome` decodes to the scenario payload, the
body `list` decodes to a payload that is not a mapping, the body `no-template` to a
command whose template has no file, the body `refused` to a command that the relay
refuses, the body `no-payload` to an envelope whose payload pointer is nil, the body
`bad-field` to a payload whose `to` is a number, any other body is not well-formed;
the relay accepts every message except those for `refused@x.com`. -/
def sampleWorld (strict : Bool) : World :=
  { strict := strict
    unmarshal := fun body =>
      if body = "welcome" then some ("id-1", some (Value.object welcomePayload))
      else if body = "list" then some ("id-2", some (Value.array []))
      else if body = "no-template" then
        some ("id-3", some (Value.object [("template", .string "missing"),
          ("to", .string "a@x.com"), ("from", .string "b@x.com")]))
      else if body = "refused" then
        some ("id-4", some (Value.object [("template", .string "welcome"),
          ("to", .string "refused@x.com"), ("from", .string "b@x.com")]))
      else if body = "no-payload" then some ("id-5", none)
      else if body = "bad-field" then
        some ("id-6", some (Value.object [("template", .string "welcome"),
          ("to", .number 7), ("from", .string "b@x.com")]))
      else none
    fs := sampleFS
    send := fun msg => if msg.to_ = "refused@x.com" then some "550 mailbox unavailable" else none }


/-! ## Reference notions for the payload claims -/

/-- The field names that `toEmailMessage` treats itself; any other key is a default
parameter. -/
def reserved : List String :=
  ["template", "locale", "to", "from", "cc", "bcc", "params", "headers"]

/-- The string held by a value, when it is one. -/
def Value.str : Value → String
  | .string s => s
  | _ => ""

/-- Whether a value is a string. -/
def Value.isString : Value → Bool
  | .string _ => true
  | _ => false


/-- The fields of a payload whose value has to be a string. -/
def stringFields : List String := ["template", "locale", "to", "from", "cc", "bcc"]

/-- The fields of a payload whose value has to be a mapping. -/
def mapFields : List String := ["params", "headers"]

/-- Whether the value `v` suits the lower-cased key `k`: a string that is not empty
after trimming for a string field, a mapping with string values for `params` and
`headers`, anything for another key. -/
def validFor (k : String) (v : Value) : Bool :=
  if k ∈ stringFields then
    match v with
    | .string s => TrimSpace s != ""
    | _ => false
  else if k ∈ mapFields then
    match v with
    | .object m => m.all (fun x => x.2.isString)
    | _ => false
  else true

/-- Whether an entry of a payload has a value that suits its key. -/
def validEntry (e : String × Value) : Bool :=
  validFor (ToLower e.1) e.2


/-- The entry of `params` under `k` in the command that `toEmailMessage` returned, if it
returned one. -/
def paramOf (r : Result EmailMessage) (k : String) : Option String :=
  match r with
  | .ok m => mapGet k m.params
  | _ => none

/-- The example of the spec for the `params` block, completed with the required fields. -/
def overridePayload : List (String × Value) :=
  [("template", .string "welcome"), ("to", .string "a@x.com"), ("from", .string "b@x.com"),
   ("foo", .string "a"), ("params", .object [("foo", .string "b")])]

/-- The command that `toEmailMessage` returns for `overridePayload`. -/
def overrideCommand : EmailMessage :=
  { template := "welcome", to_ := "a@x.com", from_ := "b@x.com", params := [("foo", "a")] }

/-- The same payload with the `params` block visited first. -/
def overridePayloadReordered : List (String × Value) :=
  [("params", .object [("foo", .string "b")]), ("template", .string "welcome"),
   ("to", .string "a@x.com"), ("foo", .string "a"), ("from", .string "b@x.com")]

/-- A payload without `template` whose `params` block holds a number. -/
def noTemplatePayload : List (String × Value) :=
  [("to", .string "a@x.com"), ("from", .string "b@x.com"),
   ("params", .object [("count", .number 1)])]

/-- A payload whose `to` is a non-empty string of white space. -/
def blankToPayload : List (String × Value) :=
  [("template", .string "welcome"), ("to", .string "  "), ("from", .string "b@x.com")]

/-- A payload with keys in mixed case, values with white space around them, both
mappings and an entry that is not a string. -/
def mixedCasePayload : List (String × Value) :=
  [("Template", .string " welcome "), ("TO", .string " A@x.com"),
   ("from", .string "B@x.com "), ("cc", .string "c@x.com"),
   ("Params", .object [("Name", .string "x")]), ("headers", .object [("X-Tag", .string "v")]),
   ("extra", .number 5), ("note", .string "n")]

/-! ## Reference notions and inputs for the batch claim -/

/-- The delivery that a retrieval returned, if it returned one. -/
def Retrieval.delivery : Retrieval → Option Delivery
  | .message d => some d
  | _ => none

/-- A configuration whose `poll-max-messages` is `n`, with the other options as `Load`
leaves them. -/
def batchConfig (n : Int) : DaemonConfig :=
  { Options := some { ConnectionRetriesMax := 0, ConnectionRetryInterval := 60,
                      PollMaxMessages := n, PollInterval := 10, PollQueue := "mail" } }

/-- A delivery of the examples with the message identifier `id`. -/
def sampleDelivery (id : String) : Delivery :=
  { MessageId := id, Body := "welcome" }

/-- Retrieval results for the examples: one failed retrieval, then four deliveries
waiting in the queue. -/
def oneErrorThenMessages : List Retrieval :=
  [Retrieval.error, Retrieval.message (sampleDelivery "m1"),
   Retrieval.message (sampleDelivery "m2"), Retrieval.message (sampleDelivery "m3"),
   Retrieval.message (sampleDelivery "m4")]

/-! ## Lemmas on strings and maps -/

/-- Lower-casing a character twice is lower-casing it once. -/
theorem lowerChar_idem (c : Char) : lowerChar (lowerChar c) = lowerChar c := by
  unfold lowerChar
  by_cases h : 65 ≤ c.toNat ∧ c.toNat ≤ 90
  · simp only [h, and_self, if_true]
    have : ¬ (65 ≤ (Char.ofNat (c.toNat + 32)).toNat ∧
        (Char.ofNat (c.toNat + 32)).toNat ≤ 90) := by
      obtain ⟨h1, h2⟩ := h
      generalize c.toNat = n at h1 h2
      interval_cases n <;> decide
    simp [this]
  · simp [h]

/-- The function `ToLower` is idempotent, so the second lower-casing of the keys of the
local map in `setEmailMaps` changes nothing. -/
theorem ToLower_idem (s : String) : ToLower (ToLower s) = ToLower s := by
  unfold ToLower
  simp only [List.map_map]
  congr 1
  apply List.map_congr_left
  intro c _
  exact lowerChar_idem c

theorem mapGet_mapSet_same {β : Type} (k : String) (v : β) (m : List (String × β)) :
    mapGet k (mapSet k v m) = some v := by
  simp [mapGet, mapSet, List.lookup]

theorem mem_mapSet {β : Type} (k : String) (v : β) (m : List (String × β)) (x : String × β) :
    x ∈ mapSet k v m ↔ x = (k, v) ∨ (x ∈ m ∧ x.1 ≠ k) := by
  simp [mapSet, List.mem_filter]

theorem mapGet_filter_ne {β : Type} (k k' : String) (h : k ≠ k') (m : List (String × β)) :
    mapGet k (m.filter (fun e => e.1 != k')) = mapGet k m := by
  induction m with
  | nil => rfl
  | cons e m ih =>
    obtain ⟨k1, v1⟩ := e
    by_cases h1 : k1 = k'
    · subst h1
      have hk : (k == k1) = false := by simpa using h
      simp only [mapGet] at ih
      simp [mapGet, List.filter, List.lookup, hk, ih]
    · have hne : (k1 != k') = true := by simpa using h1
      simp only [mapGet] at ih
      simp only [mapGet, List.filter, hne, List.lookup]
      cases hk : (k == k1) <;> simp [ih]

theorem mapGet_mapSet_other {β : Type} (k k' : String) (h : k ≠ k') (v : β)
    (m : List (String × β)) : mapGet k (mapSet k' v m) = mapGet k m := by
  have hk : (k == k') = false := by simpa using h
  have := mapGet_filter_ne k k' h m
  simp only [mapGet] at this
  simp [mapGet, mapSet, List.lookup, hk, this]


/-- The function `setEmailMaps` leaves `template`, `to` and `from` alone. -/
theorem setEmailMaps_fields (d : String) (l : List (String × Value)) :
    ∀ m m', setEmailMaps m l d = Result.ok m' →
      m'.template = m.template ∧ m'.to_ = m.to_ ∧ m'.from_ = m.from_ := by
  induction l with
  | nil => intro m m' h; simp [setEmailMaps] at h; subst h; exact ⟨rfl, rfl, rfl⟩
  | cons e l ih =>
    intro m m' h
    obtain ⟨k, v⟩ := e
    unfold setEmailMaps at h
    by_cases hp : d = "params"
    · subst hp
      cases v <;> simp [EmailMessage.SetParameter] at h
      have := ih _ _ h
      exact this
    · by_cases hh : d = "headers"
      · subst hh
        cases v <;> simp [EmailMessage.SetHeader] at h
        all_goals
          have h2 := ih _ _ h
          exact h2
      · simp only [hp, hh, if_false] at h
        exact ih _ _ h

/-- The function `setEmailMaps` returns without error on a mapping of strings. -/
theorem setEmailMaps_strings_ok (d : String) (l : List (String × Value)) :
    ∀ m, (∀ e ∈ l, ∃ s, e.2 = Value.string s) → ∃ m', setEmailMaps m l d = Result.ok m' := by
  induction l with
  | nil => intro m _; exact ⟨m, by simp [setEmailMaps]⟩
  | cons e l ih =>
    intro m h
    obtain ⟨k, v⟩ := e
    obtain ⟨s, hs⟩ := h (k, v) (by simp)
    simp only at hs
    subst hs
    have hl : ∀ e ∈ l, ∃ s, e.2 = Value.string s := fun e he => h e (by simp [he])
    unfold setEmailMaps
    by_cases hp : d = "params"
    · subst hp
      simp only [if_true, EmailMessage.SetParameter]
      exact ih _ hl
    · by_cases hh : d = "headers"
      · subst hh
        simp only [hp, if_true, if_false, EmailMessage.SetHeader]
        exact ih _ hl
      · simp only [hp, hh, if_false]
        exact ih _ hl

/-- After `setEmailMaps` with `d = "params"` returns, the entry of `params` under a key
`kk` is the value `a` when the entries of `s` that lower-case to `kk` all carry `a`
and either there is one or the entry was `a` before. -/
theorem setEmailMaps_params_lookup (kk a : String) (l : List (String × Value)) :
    ∀ m m', setEmailMaps m l "params" = Result.ok m' →
      (∀ e ∈ l, ToLower e.1 = kk → e.2 = Value.string a) →
      (mapGet kk m.params = some a ∨ ∃ e ∈ l, ToLower e.1 = kk) →
      mapGet kk m'.params = some a := by
  induction l with
  | nil =>
    intro m m' h _ hor
    simp [setEmailMaps] at h
    subst h
    rcases hor with h | ⟨e, he, _⟩
    · exact h
    · simp at he
  | cons e l ih =>
    intro m m' h hall hor
    obtain ⟨k, v⟩ := e
    unfold setEmailMaps at h
    cases v <;> simp [EmailMessage.SetParameter] at h
    rename_i x
    have hl : ∀ e ∈ l, ToLower e.1 = kk → e.2 = Value.string a :=
      fun e he => hall e (by simp [he])
    apply ih _ _ h hl
    by_cases hk : ToLower k = kk
    · left
      have := hall (k, Value.string x) (by simp) hk
      simp only [Value.string.injEq] at this
      subst this
      subst hk
      exact mapGet_mapSet_same _ _ _
    · rcases hor with h0 | ⟨e, he, hek⟩
      · left
        simp only
        rw [mapGet_mapSet_other kk (ToLower k) (fun h => hk h.symm)]
        exact h0
      · right
        simp only [List.mem_cons] at he
        rcases he with rfl | he
        · exact absurd hek hk
        · exact ⟨e, he, hek⟩


theorem afterSetter_ok (r : Except String EmailMessage) (p : List (String × Value))
    (m1 : EmailMessage) (p1 : List (String × Value))
    (h : afterSetter r p = Result.ok (m1, p1)) : r = Except.ok m1 ∧ p1 = p := by
  cases r <;> simp [afterSetter] at h
  exact ⟨by rw [h.1], h.2.symm⟩

theorem afterMaps_ok (r : Result EmailMessage) (p : List (String × Value))
    (m1 : EmailMessage) (p1 : List (String × Value))
    (h : afterMaps r p = Result.ok (m1, p1)) : r = Result.ok m1 ∧ p1 = p := by
  cases r <;> simp [afterMaps] at h
  exact ⟨by rw [h.1], h.2.symm⟩

/-- What one step of the loop of `toEmailMessage` does to the local map `params`: it
is left alone, or a string under a key that is not a field name is stored. -/
theorem switchField_bucket (strict : Bool) (k : String) (v : Value) (m : EmailMessage)
    (p : List (String × Value)) (m1 : EmailMessage) (p1 : List (String × Value))
    (h : switchField strict k v m p = Result.ok (m1, p1)) :
    p1 = p ∨ (∃ s, v = Value.string s ∧ k ∉ reserved ∧ p1 = mapSet k (Value.string s) p) := by
  unfold switchField at h
  split_ifs at h with h1 h2 h3 h4 h5 h6 h7 h8
  all_goals first
    | (cases v <;> simp at h <;> first
        | exact Or.inl (afterSetter_ok _ _ _ _ h).2
        | exact Or.inl (afterMaps_ok _ _ _ _ h).2)
    | (cases v <;> simp at h
       all_goals first
        | exact Or.inl h.2.symm
        | exact Or.inr ⟨_, rfl, by simp [reserved, h1, h2, h3, h4, h5, h6, h7, h8], h.2.symm⟩)

theorem switchField_default (strict : Bool) (k s : String) (m : EmailMessage)
    (p : List (String × Value)) (hk : k ∉ reserved) :
    switchField strict k (Value.string s) m p = Result.ok (m, mapSet k (Value.string s) p) := by
  simp only [reserved, List.mem_cons, List.mem_singleton, not_or, List.mem_nil_iff,
    not_false_eq_true, and_true] at hk
  obtain ⟨h1, h2, h3, h4, h5, h6, h7, h8⟩ := hk
  simp [switchField, h1, h2, h3, h4, h5, h6, h7, h8]


theorem toEmailMessageLoop_cons (strict : Bool) (k : String) (v : Value)
    (rest : List (String × Value)) (m : EmailMessage) (p : List (String × Value))
    (r : EmailMessage × List (String × Value))
    (h : toEmailMessageLoop strict ((k, v) :: rest) m p = Result.ok r) :
    ∃ m1 p1, switchField strict (ToLower k) v m p = Result.ok (m1, p1) ∧
      toEmailMessageLoop strict rest m1 p1 = Result.ok r := by
  unfold toEmailMessageLoop at h
  cases hsw : switchField strict (ToLower k) v m p with
  | ok a => obtain ⟨m1, p1⟩ := a; rw [hsw] at h; exact ⟨m1, p1, rfl, h⟩
  | err e => rw [hsw] at h; cases h
  | panic e => rw [hsw] at h; cases h

theorem toEmailMessage_ok (strict : Bool) (src : List (String × Value)) (msg : EmailMessage)
    (h : toEmailMessage strict src = Result.ok msg) :
    ∃ m1 p1, toEmailMessageLoop strict src {} [] = Result.ok (m1, p1) ∧
      setEmailMaps m1 p1 "params" = Result.ok msg ∧ msg.IsValid = true := by
  unfold toEmailMessage at h
  cases hl : toEmailMessageLoop strict src {} [] with
  | ok a =>
    obtain ⟨m1, p1⟩ := a
    rw [hl] at h
    simp only at h
    cases hs : setEmailMaps m1 p1 "params" with
    | ok m2 =>
      rw [hs] at h
      simp only at h
      by_cases hv : m2.IsValid = true
      · simp [hv] at h
        subst h
        exact ⟨m1, p1, rfl, hs, hv⟩
      · simp [hv] at h
    | err e => rw [hs] at h; cases h
    | panic e => rw [hs] at h; cases h
  | err e => rw [hl] at h; cases h
  | panic e => rw [hl] at h; cases h

/-- The local map `params` after the loop of `toEmailMessage`: its entries are
top-level strings under their lower-cased keys, and every top-level string whose key
is not a field name has an entry. -/
theorem toEmailMessageLoop_bucket (strict : Bool) (src : List (String × Value)) :
    ∀ (m : EmailMessage) (p : List (String × Value)) (m' : EmailMessage)
      (p' : List (String × Value)),
      toEmailMessageLoop strict src m p = Result.ok (m', p') →
      (∀ x ∈ p', x ∈ p ∨ ∃ k s, (k, Value.string s) ∈ src ∧ x = (ToLower k, Value.string s)) ∧
      (∀ kk, ((∃ v, (kk, v) ∈ p) ∨
          (∃ k s, (k, Value.string s) ∈ src ∧ ToLower k = kk ∧ kk ∉ reserved)) →
        ∃ v, (kk, v) ∈ p') := by
  induction src with
  | nil =>
    intro m p m' p' h
    simp [toEmailMessageLoop] at h
    obtain ⟨_, rfl⟩ := h
    refine ⟨fun x hx => Or.inl hx, fun kk hor => ?_⟩
    rcases hor with h | ⟨k, s, hmem, _⟩
    · exact h
    · simp at hmem
  | cons e rest ih =>
    intro m p m' p' h
    obtain ⟨k, v⟩ := e
    obtain ⟨m1, p1, hsw, hrest⟩ := toEmailMessageLoop_cons strict k v rest m p _ h
    obtain ⟨ih1, ih2⟩ := ih m1 p1 m' p' hrest
    have hb := switchField_bucket strict _ v m p m1 p1 hsw
    refine ⟨fun x hx => ?_, fun kk hor => ?_⟩
    · rcases ih1 x hx with hx1 | ⟨k0, s0, hmem, hx0⟩
      · rcases hb with rfl | ⟨s, rfl, _, rfl⟩
        · exact Or.inl hx1
        · rcases (mem_mapSet _ _ _ _).1 hx1 with rfl | ⟨hxp, _⟩
          · exact Or.inr ⟨k, s, by simp, rfl⟩
          · exact Or.inl hxp
      · exact Or.inr ⟨k0, s0, by simp [hmem], hx0⟩
    · apply ih2 kk
      rcases hor with ⟨v0, hv0⟩ | ⟨k0, s0, hmem, hk0, hres⟩
      · left
        rcases hb with rfl | ⟨s, rfl, _, rfl⟩
        · exact ⟨v0, hv0⟩
        · by_cases hkk : kk = ToLower k
          · exact ⟨Value.string s, (mem_mapSet _ _ _ _).2 (Or.inl (by rw [hkk]))⟩
          · exact ⟨v0, (mem_mapSet _ _ _ _).2 (Or.inr ⟨hv0, hkk⟩)⟩
      · simp only [List.mem_cons, Prod.mk.injEq] at hmem
        rcases hmem with ⟨rfl, rfl⟩ | hmem
        · left
          rw [hk0] at hsw
          rw [switchField_default strict kk s0 m p hres] at hsw
          simp only [Result.ok.injEq, Prod.mk.injEq] at hsw
          obtain ⟨_, rfl⟩ := hsw
          exact ⟨Value.string s0, (mem_mapSet _ _ _ _).2 (Or.inl rfl)⟩
        · exact Or.inr ⟨k0, s0, hmem, hk0, hres⟩

/-- C2 (amended): whenever `toEmailMessage` returns a command for a payload that has a
top-level string `a` under a key `k` that is not a field name, `params[lower(k)]` of the
command is that top-level value `a`, whatever an explicit `params` block holds under
the same key, provided every top-level string whose key lower-cases to `lower(k)` is
`a` as well.  The local map of top-level strings is stored after the loop, so it is
applied last. -/
theorem toplevel_param_wins (strict : Bool) (src : List (String × Value)) (k a : String)
    (msg : EmailMessage) (hk : (k, Value.string a) ∈ src) (hres : ToLower k ∉ reserved)
    (huniq : ∀ k' s, (k', Value.string s) ∈ src → ToLower k' = ToLower k → s = a)
    (hok : toEmailMessage strict src = Result.ok msg) :
    mapGet (ToLower k) msg.params = some a := by
  obtain ⟨m1, p1, hloop, hset, _⟩ := toEmailMessage_ok strict src msg hok
  obtain ⟨hb1, hb2⟩ := toEmailMessageLoop_bucket strict src {} [] m1 p1 hloop
  apply setEmailMaps_params_lookup (ToLower k) a p1 m1 msg hset
  · intro e he hek
    rcases hb1 e he with h | ⟨k', s, hmem, rfl⟩
    · simp at h
    · simp only at hek ⊢
      rw [ToLower_idem] at hek
      rw [huniq k' s hmem hek]
  · right
    obtain ⟨v, hv⟩ := hb2 (ToLower k) (Or.inr ⟨k, a, hk, rfl, hres⟩)
    exact ⟨_, hv, ToLower_idem k⟩


theorem setterValue_ok (strict : Bool) (field s : String) (h : TrimSpace s ≠ "") :
    setterValue strict field s = Except.ok (TrimSpace s) := by
  simp [setterValue, h]

/-- One step of the loop of `toEmailMessage` on an entry whose value suits its key: it
succeeds, and `template`, `to` and `from` change only under their own key. -/
theorem switchField_valid (strict : Bool) (k : String) (v : Value) (m : EmailMessage)
    (p : List (String × Value)) (hv : validFor k v = true)
    (hp : ∀ x ∈ p, x.2.isString = true) :
    ∃ m1 p1, switchField strict k v m p = Result.ok (m1, p1) ∧
      (∀ x ∈ p1, x.2.isString = true) ∧
      m1.template = (if k = "template" then TrimSpace v.str else m.template) ∧
      m1.to_ = (if k = "to" then TrimSpace v.str else m.to_) ∧
      m1.from_ = (if k = "from" then TrimSpace v.str else m.from_) := by
  unfold validFor at hv
  by_cases hs : k ∈ stringFields
  · simp only [hs, if_true] at hv
    cases v <;> simp at hv
    rename_i s
    simp only [stringFields, List.mem_cons, List.mem_singleton, List.mem_nil_iff,
      or_false] at hs
    rcases hs with rfl | rfl | rfl | rfl | rfl | rfl <;>
      simp [switchField, afterSetter, EmailMessage.SetTemplate, EmailMessage.SetLanguage,
        EmailMessage.SetTo, EmailMessage.SetFrom, EmailMessage.SetCC, EmailMessage.SetBCC,
        setterValue_ok strict _ s hv, Except.map, Value.str] <;>
      exact ⟨_, _, ⟨rfl, rfl⟩, fun a b h => hp (a, b) h, rfl, rfl, rfl⟩
  · simp only [hs, if_false] at hv
    have hs' := hs
    simp only [stringFields, List.mem_cons, List.mem_singleton, List.mem_nil_iff,
      or_false, not_or] at hs'
    obtain ⟨n1, n2, n3, n4, n5, n6⟩ := hs'
    by_cases hm : k ∈ mapFields
    · simp only [hm, if_true] at hv
      cases v <;> simp at hv
      rename_i mm
      have hstr : ∀ e ∈ mm, ∃ s, e.2 = Value.string s := by
        intro e he
        have := hv e.1 e.2 he
        cases h2 : e.2 <;> simp [h2, Value.isString] at this
        exact ⟨_, rfl⟩
      simp only [mapFields, List.mem_cons, List.mem_singleton, List.mem_nil_iff,
        or_false] at hm
      rcases hm with rfl | rfl
      · obtain ⟨m', hm'⟩ := setEmailMaps_strings_ok "params" mm m hstr
        obtain ⟨f1, f2, f3⟩ := setEmailMaps_fields "params" mm m m' hm'
        simp [switchField, hm', afterMaps]
        exact ⟨_, _, ⟨rfl, rfl⟩, fun a b h => hp (a, b) h, f1, f2, f3⟩
      · obtain ⟨m', hm'⟩ := setEmailMaps_strings_ok "headers" mm m hstr
        obtain ⟨f1, f2, f3⟩ := setEmailMaps_fields "headers" mm m m' hm'
        simp [switchField, hm', afterMaps]
        exact ⟨_, _, ⟨rfl, rfl⟩, fun a b h => hp (a, b) h, f1, f2, f3⟩
    · simp only [mapFields, List.mem_cons, List.mem_singleton, List.mem_nil_iff,
        or_false, not_or] at hm
      obtain ⟨n7, n8⟩ := hm
      have hset : ∀ s, ∀ x ∈ mapSet k (Value.string s) p, x.2.isString = true := by
        intro s x hx
        rcases (mem_mapSet _ _ _ _).1 hx with rfl | ⟨hxp, _⟩
        · rfl
        · exact hp x hxp
      cases v <;> simp [switchField, n1, n2, n3, n4, n5, n6, n7, n8] <;>
        first
          | exact ⟨_, _, ⟨rfl, rfl⟩, fun a b h => hp (a, b) h, rfl, rfl, rfl⟩
          | exact ⟨_, _, ⟨rfl, rfl⟩, fun a b h => hset _ (a, b) h, rfl, rfl, rfl⟩


theorem validEntry_trim (e : String × Value) (hv : validEntry e = true)
    (hk : ToLower e.1 ∈ stringFields) : TrimSpace e.2.str ≠ "" := by
  unfold validEntry validFor at hv
  simp only [hk, if_true] at hv
  cases h2 : e.2 <;> simp [h2] at hv
  simpa [Value.str] using hv

/-- The loop of `toEmailMessage` on a payload whose keys are distinct after lower-casing
and whose values suit their keys: it succeeds, and each of `template`, `to`, `from` is
the trimmed value of its entry, or unchanged when the payload has no such entry. -/
theorem toEmailMessageLoop_valid (strict : Bool) (src : List (String × Value)) :
    ∀ (m : EmailMessage) (p : List (String × Value)),
      (src.map (fun e => ToLower e.1)).Nodup → (∀ e ∈ src, validEntry e = true) →
      (∀ x ∈ p, x.2.isString = true) →
      ∃ m' p', toEmailMessageLoop strict src m p = Result.ok (m', p') ∧
        (∀ x ∈ p', x.2.isString = true) ∧
        ((∀ e ∈ src, ToLower e.1 = "template" → m'.template = TrimSpace e.2.str) ∧
          ((∀ e ∈ src, ToLower e.1 ≠ "template") → m'.template = m.template)) ∧
        ((∀ e ∈ src, ToLower e.1 = "to" → m'.to_ = TrimSpace e.2.str) ∧
          ((∀ e ∈ src, ToLower e.1 ≠ "to") → m'.to_ = m.to_)) ∧
        ((∀ e ∈ src, ToLower e.1 = "from" → m'.from_ = TrimSpace e.2.str) ∧
          ((∀ e ∈ src, ToLower e.1 ≠ "from") → m'.from_ = m.from_)) := by
  induction src with
  | nil =>
    intro m p _ _ hp
    exact ⟨m, p, by simp [toEmailMessageLoop], hp, by simp, by simp, by simp⟩
  | cons e rest ih =>
    intro m p hnd hval hp
    obtain ⟨k, v⟩ := e
    simp only [List.map_cons, List.nodup_cons, List.mem_map, not_exists, not_and] at hnd
    obtain ⟨hfresh, hnd'⟩ := hnd
    have hv : validFor (ToLower k) v = true := hval (k, v) (by simp)
    obtain ⟨m1, p1, hsw, hp1, ft, fto, ffrom⟩ := switchField_valid strict _ v m p hv hp
    obtain ⟨m', p', hloop, hp', it, ito, ifrom⟩ :=
      ih m1 p1 hnd' (fun e he => hval e (by simp [he])) hp1
    have key : ∀ (f : String) (g : EmailMessage → String),
        g m1 = (if ToLower k = f then TrimSpace v.str else g m) →
        ((∀ e ∈ rest, ToLower e.1 = f → g m' = TrimSpace e.2.str) ∧
          ((∀ e ∈ rest, ToLower e.1 ≠ f) → g m' = g m1)) →
        ((∀ e ∈ (k, v) :: rest, ToLower e.1 = f → g m' = TrimSpace e.2.str) ∧
          ((∀ e ∈ (k, v) :: rest, ToLower e.1 ≠ f) → g m' = g m)) := by
      intro f g h1 ⟨i1, i2⟩
      refine ⟨fun e he hf => ?_, fun hno => ?_⟩
      · simp only [List.mem_cons] at he
        rcases he with rfl | he
        · simp only at hf
          have hnone : ∀ e ∈ rest, ToLower e.1 ≠ f := by
            intro e he hef
            exact hfresh e he (by rw [hef, hf])
          rw [i2 hnone, h1]
          simp [hf]
        · exact i1 e he hf
      · have hk : ToLower k ≠ f := hno (k, v) (by simp)
        rw [i2 (fun e he => hno e (by simp [he])), h1]
        simp [hk]
    refine ⟨m', p', ?_, hp', key "template" (fun m => m.template) ft it,
      key "to" (fun m => m.to_) fto ito, key "from" (fun m => m.from_) ffrom ifrom⟩
    unfold toEmailMessageLoop
    rw [hsw]
    exact hloop

/-- C4 (amended): for every payload whose keys are pairwise distinct after lower-casing,
in which `template`, `to` and `from` are present, each of `template`, `to`, `from`,
`locale`, `cc`, `bcc` that is present is a string that is not empty after trimming
white space, and `params` and `headers` if present are mappings with string values,
`toEmailMessage` succeeds and the `template`, `to` and `from` of the command are the
trimmed input values in their original case.  This holds under both readings of the
setters. -/
theorem toEmailMessage_valid_fields (strict : Bool) (src : List (String × Value))
    (hdistinct : (src.map (fun e => ToLower e.1)).Nodup)
    (hvalid : ∀ e ∈ src, validEntry e = true)
    (htemplate : ∃ e ∈ src, ToLower e.1 = "template")
    (hto : ∃ e ∈ src, ToLower e.1 = "to")
    (hfrom : ∃ e ∈ src, ToLower e.1 = "from") :
    ∃ msg, toEmailMessage strict src = Result.ok msg ∧
      (∀ e ∈ src, ToLower e.1 = "template" → msg.template = TrimSpace e.2.str) ∧
      (∀ e ∈ src, ToLower e.1 = "to" → msg.to_ = TrimSpace e.2.str) ∧
      (∀ e ∈ src, ToLower e.1 = "from" → msg.from_ = TrimSpace e.2.str) := by
  obtain ⟨m1, p1, hloop, hp1, ⟨t1, _⟩, ⟨to1, _⟩, ⟨f1, _⟩⟩ :=
    toEmailMessageLoop_valid strict src {} [] hdistinct hvalid (by simp)
  have hstr : ∀ e ∈ p1, ∃ s, e.2 = Value.string s := by
    intro e he
    have := hp1 e he
    cases h2 : e.2 <;> simp [h2, Value.isString] at this
    exact ⟨_, rfl⟩
  obtain ⟨msg, hmsg⟩ := setEmailMaps_strings_ok "params" p1 m1 hstr
  obtain ⟨g1, g2, g3⟩ := setEmailMaps_fields "params" p1 m1 msg hmsg
  obtain ⟨et, het, hkt⟩ := htemplate
  obtain ⟨eto, heto, hkto⟩ := hto
  obtain ⟨ef, hef, hkf⟩ := hfrom
  have v1 : msg.template ≠ "" := by
    rw [g1, t1 et het hkt]
    exact validEntry_trim et (hvalid et het) (by rw [hkt]; decide)
  have v2 : msg.to_ ≠ "" := by
    rw [g2, to1 eto heto hkto]
    exact validEntry_trim eto (hvalid eto heto) (by rw [hkto]; decide)
  have v3 : msg.from_ ≠ "" := by
    rw [g3, f1 ef hef hkf]
    exact validEntry_trim ef (hvalid ef hef) (by rw [hkf]; decide)
  refine ⟨msg, ?_, fun e he hk => by rw [g1]; exact t1 e he hk,
    fun e he hk => by rw [g2]; exact to1 e he hk, fun e he hk => by rw [g3]; exact f1 e he hk⟩
  unfold toEmailMessage
  rw [hloop]
  simp only
  rw [hmsg]
  simp [EmailMessage.IsValid, v1, v2, v3]

/-! ## Lemmas on the failure counter -/

theorem trailing_nil {α : Type} (p : α → Bool) : trailing p [] = 0 := rfl

theorem trailing_snoc {α : Type} (p : α → Bool) (l : List α) (a : α) :
    trailing p (l ++ [a]) = if p a then trailing p l + 1 else 0 := by
  unfold trailing
  rw [List.reverse_append]
  cases h : p a <;> simp [List.takeWhile_cons, h]

theorem scan_append {α : Type} (p : α → Bool) (limit : Nat) (l l' : List α) :
    ∀ e n, scan p limit e n (l ++ l') =
      if (scan p limit e n l).1 then scan p limit e n l
      else scan p limit (scan p limit e n l).2.1 (scan p limit e n l).2.2 l' := by
  induction l with
  | nil => intro e n; simp [scan]
  | cons a l ih =>
    intro e n
    simp only [List.cons_append, scan]
    by_cases hp : p a = true
    · by_cases hl : e + 1 > limit
      · simp [hp, hl]
      · simp only [hp, hl, if_true, if_false]
        exact ih _ _
    · simp only [hp, if_false]
      exact ih _ _

/-- What the counter machine `scan` computes, in terms of the runs of failures at the
end of the prefixes of the list. -/
theorem scan_spec {α : Type} (p : α → Bool) (limit : Nat) (l : List α) :
    ((scan p limit 0 0 l).1 = false →
        (scan p limit 0 0 l).2.1 = trailing p l ∧ (scan p limit 0 0 l).2.2 = l.length ∧
        ∀ j, j ≤ l.length → trailing p (l.take j) ≤ limit) ∧
    ((scan p limit 0 0 l).1 = true →
        (scan p limit 0 0 l).2.2 ≤ l.length ∧
        (scan p limit 0 0 l).2.1 = limit + 1 ∧
        trailing p (l.take (scan p limit 0 0 l).2.2) = limit + 1 ∧
        ∀ j, j < (scan p limit 0 0 l).2.2 → trailing p (l.take j) ≤ limit) := by
  induction l using List.reverseRecOn with
  | nil => simp [scan, trailing_nil]
  | append_singleton l a ih =>
    rw [scan_append]
    cases ht : (scan p limit 0 0 l).1
    · obtain ⟨he, hn, hall⟩ := ih.1 ht
      have hle : trailing p l ≤ limit := by
        have := hall l.length (le_refl _)
        simpa using this
      simp only [Bool.false_eq_true, if_false, scan]
      by_cases hp : p a = true
      · by_cases hl : (scan p limit 0 0 l).2.1 + 1 > limit
        · simp only [hp, hl, if_true]
          refine ⟨by simp, fun _ => ⟨by simp [hn], by omega, ?_, ?_⟩⟩
          · rw [hn]
            have : (l ++ [a]).take (l.length + 1) = l ++ [a] := by
              apply List.take_of_length_le; simp
            rw [this, trailing_snoc, hp]; simp; omega
          · intro j hj
            rw [hn] at hj
            rw [List.take_append_of_le_length (by omega)]
            exact hall j (by omega)
        · simp only [hp, hl, if_true, if_false]
          refine ⟨fun _ => ⟨?_, by simp [hn], ?_⟩, by simp⟩
          · rw [trailing_snoc, hp]; simp [he]
          · intro j hj
            by_cases hj' : j ≤ l.length
            · rw [List.take_append_of_le_length hj']; exact hall j hj'
            · have : (l ++ [a]).take j = l ++ [a] := by
                apply List.take_of_length_le; simp; simp at hj; omega
              rw [this, trailing_snoc, hp]; simp; omega
      · simp only [hp, if_false]
        refine ⟨fun _ => ⟨?_, by simp [hn], ?_⟩, by simp⟩
        · rw [trailing_snoc]; simp [hp]
        · intro j hj
          by_cases hj' : j ≤ l.length
          · rw [List.take_append_of_le_length hj']; exact hall j hj'
          · have : (l ++ [a]).take j = l ++ [a] := by
              apply List.take_of_length_le; simp; simp at hj; omega
            rw [this, trailing_snoc]; simp [hp]
    · obtain ⟨hn, he, htr, hall⟩ := ih.2 ht
      simp only [if_true]
      refine ⟨by simp [ht], fun _ => ⟨by simp; omega, he, ?_, ?_⟩⟩
      · rw [List.take_append_of_le_length hn]; exact htr
      · intro j hj
        rw [List.take_append_of_le_length (by omega)]
        exact hall j hj

theorem connectorLoop_quiet_cons (m : Nat) (hm : 0 < m) (b : Bool) (outs : List Bool)
    (st : ConnectorState) :
    connectorLoop (m : Int) st (quietAttempts (b :: outs)) =
      if b then
        connectorLoop (m : Int) ⟨0, st.attempts + 1, st.pollerRuns + 1, st.Shutdown⟩
          (quietAttempts outs)
      else if st.errorCount + 1 > m then
        (ConnectorExit.retriesExceeded,
          ⟨st.errorCount + 1, st.attempts + 1, st.pollerRuns, true⟩)
      else
        connectorLoop (m : Int) ⟨st.errorCount + 1, st.attempts + 1, st.pollerRuns, st.Shutdown⟩
          (quietAttempts outs) := by
  have hm' : (0 : Int) < (m : Int) := by exact_mod_cast hm
  cases b
  · by_cases hl : st.errorCount + 1 > m
    · have hl' : (m : Int) < (st.errorCount : Int) + 1 := by omega
      simp [quietAttempts, connectorLoop, hl, hl', hm]
    · have hl' : ¬ (m : Int) < (st.errorCount : Int) + 1 := by omega
      simp [quietAttempts, connectorLoop, hl, hl']
  · have hl' : ¬ (m : Int) < 0 := by omega
    simp [quietAttempts, connectorLoop, hl']

/-- The loop of `connector`, when no signal arrives, is the failure counter with the
ceiling `maxRetries`. -/
theorem connectorLoop_scan (m : Nat) (hm : 0 < m) (outs : List Bool) :
    ∀ st : ConnectorState,
      (connectorLoop (m : Int) st (quietAttempts outs)).1 =
          (if (scan (fun b => !b) m st.errorCount st.attempts outs).1
            then ConnectorExit.retriesExceeded else ConnectorExit.running) ∧
      (connectorLoop (m : Int) st (quietAttempts outs)).2.errorCount =
          (scan (fun b => !b) m st.errorCount st.attempts outs).2.1 ∧
      (connectorLoop (m : Int) st (quietAttempts outs)).2.attempts =
          (scan (fun b => !b) m st.errorCount st.attempts outs).2.2 ∧
      (connectorLoop (m : Int) st (quietAttempts outs)).2.Shutdown =
          ((scan (fun b => !b) m st.errorCount st.attempts outs).1 || st.Shutdown) := by
  induction outs with
  | nil => intro st; simp [quietAttempts, connectorLoop, scan]
  | cons b outs ih =>
    intro st
    rw [connectorLoop_quiet_cons m hm]
    cases b
    · by_cases hl : st.errorCount + 1 > m
      · simp [scan, hl]
      · simp only [Bool.false_eq_true, if_false, hl, scan, Bool.not_false, if_true]
        exact ih ⟨st.errorCount + 1, st.attempts + 1, st.pollerRuns, st.Shutdown⟩
    · simp only [if_true, scan, Bool.not_true, Bool.false_eq_true, if_false]
      exact ih ⟨0, st.attempts + 1, st.pollerRuns + 1, st.Shutdown⟩

/-- One batch of `Poller` advances the failure counter with the ceiling 10 over the
results it reads. -/
theorem batch_scan (name : String) :
    ∀ (slots : Nat) (st : PollerState) (rs : List Retrieval),
      ((batch name slots st rs).1 = BatchExit.tooManyErrors →
        scan Retrieval.isError 10 st.errorCount st.queues.length rs =
          (true, (batch name slots st rs).2.1.errorCount,
            (batch name slots st rs).2.1.queues.length)) ∧
      ((batch name slots st rs).1 = BatchExit.blocked →
        scan Retrieval.isError 10 st.errorCount st.queues.length rs =
          (false, (batch name slots st rs).2.1.errorCount,
            (batch name slots st rs).2.1.queues.length)) ∧
      ((batch name slots st rs).1 = BatchExit.done →
        scan Retrieval.isError 10 st.errorCount st.queues.length rs =
          scan Retrieval.isError 10 (batch name slots st rs).2.1.errorCount
            (batch name slots st rs).2.1.queues.length (batch name slots st rs).2.2 ∧
        (batch name slots st rs).2.2.length ≤ rs.length ∧
        (0 < slots → (batch name slots st rs).2.2.length < rs.length)) := by
  intro slots
  induction slots with
  | zero => intro st rs; simp [batch]
  | succ slots ih =>
    intro st rs
    cases rs with
    | nil => simp [batch, scan]
    | cons r rs =>
      cases r with
      | error =>
        by_cases hl : st.errorCount + 1 > 10
        · simp [batch, scan, Retrieval.isError, hl]
        · have h := ih ⟨st.errorCount + 1, st.queues ++ [name], st.started, st.sleeps⟩ rs
          simp only [List.length_append, List.length_singleton] at h
          simp only [batch, scan, Retrieval.isError, hl, if_true, if_false, List.length_cons]
          refine ⟨h.1, h.2.1, fun hd => ⟨(h.2.2 hd).1, ?_, fun _ => ?_⟩⟩
          · have := (h.2.2 hd).2.1; omega
          · have := (h.2.2 hd).2.1; omega
      | empty =>
        simp [batch, scan, Retrieval.isError]
      | message d =>
        have h := ih ⟨0, st.queues ++ [name], st.started ++ [d], st.sleeps⟩ rs
        simp only [List.length_append, List.length_singleton] at h
        simp only [batch, scan, Retrieval.isError, Bool.false_eq_true, if_false,
          List.length_cons]
        refine ⟨h.1, h.2.1, fun hd => ⟨(h.2.2 hd).1, ?_, fun _ => ?_⟩⟩
        · have := (h.2.2 hd).2.1; omega
        · have := (h.2.2 hd).2.1; omega

/-- The loop of `Poller`, while the flag stays unset and with enough cycles to read all
results, is the failure counter with the ceiling 10: it ends either by returning for
too many errors or waiting for a retrieval beyond the given results. -/
theorem pollerLoop_scan (name : String) (maxMessages : Int) (shutdown : Nat → Bool)
    (hs : ∀ k, shutdown k = false) (hmax : 0 < maxMessages.toNat) :
    ∀ (fuel cycle : Nat) (st : PollerState) (rs : List Retrieval), rs.length < fuel →
      ((pollerLoop name maxMessages shutdown fuel cycle st rs).1 = PollerExit.tooManyErrors ∧
        scan Retrieval.isError 10 st.errorCount st.queues.length rs =
          (true, (pollerLoop name maxMessages shutdown fuel cycle st rs).2.errorCount,
            (pollerLoop name maxMessages shutdown fuel cycle st rs).2.queues.length)) ∨
      ((pollerLoop name maxMessages shutdown fuel cycle st rs).1 = PollerExit.blocked ∧
        scan Retrieval.isError 10 st.errorCount st.queues.length rs =
          (false, (pollerLoop name maxMessages shutdown fuel cycle st rs).2.errorCount,
            (pollerLoop name maxMessages shutdown fuel cycle st rs).2.queues.length)) := by
  intro fuel
  induction fuel with
  | zero => intro cycle st rs h; omega
  | succ fuel ih =>
    intro cycle st rs hlen
    have hb := batch_scan name maxMessages.toNat st rs
    unfold pollerLoop
    simp only [hs, Bool.false_eq_true, if_false]
    rcases hr : batch name maxMessages.toNat st rs with ⟨ex, st', rs'⟩
    rw [hr] at hb
    cases ex with
    | tooManyErrors => left; exact ⟨rfl, hb.1 rfl⟩
    | blocked => right; exact ⟨rfl, hb.2.1 rfl⟩
    | done =>
      obtain ⟨hscan, _, hlt⟩ := hb.2.2 rfl
      have hlen' : rs'.length < fuel := by have := hlt hmax; simp at this; omega
      have := ih (cycle + 1) { st' with sleeps := st'.sleeps + 1 } rs' hlen'
      simp only at hscan this ⊢
      rw [hscan]
      exact this

/-! ## C7: the retry ceiling of `connector` -/

/-- C7: with `maxRetries = m > 0` and no signal, `connector` sets the shutdown flag
exactly when some attempt ends a run of `m + 1` consecutive failed connects (counted
from the start or from the last success); it does so at the first such attempt and
not earlier, and while it has not, its counter is the length of the current run of
failures (so 0 after a success).  With `m = 3`: four failures set the flag after the
fourth attempt, three do not, and failure, success, three failures does not. -/
theorem connector_retry_shutdown (c : DaemonConfig) (o : Options) (m : Nat)
    (hc : c.Options = some o) (hmax : o.ConnectionRetriesMax = (m : Int)) (hm : 0 < m)
    (outs : List Bool) :
    ((connector c (quietAttempts outs)).2.Shutdown = true ↔
      ∃ n, n ≤ outs.length ∧ trailing (fun b => !b) (outs.take n) = m + 1) ∧
    ((connector c (quietAttempts outs)).2.Shutdown = true →
      (connector c (quietAttempts outs)).1 = ConnectorExit.retriesExceeded ∧
      (connector c (quietAttempts outs)).2.attempts ≤ outs.length ∧
      trailing (fun b => !b) (outs.take (connector c (quietAttempts outs)).2.attempts) = m + 1 ∧
      ∀ j, j < (connector c (quietAttempts outs)).2.attempts →
        trailing (fun b => !b) (outs.take j) ≤ m) ∧
    ((connector c (quietAttempts outs)).2.Shutdown = false →
      (connector c (quietAttempts outs)).1 = ConnectorExit.running ∧
      (connector c (quietAttempts outs)).2.attempts = outs.length ∧
      (connector c (quietAttempts outs)).2.errorCount = trailing (fun b => !b) outs) ∧
    connector (retryConfig 3) (quietAttempts [false, false, false, false]) =
      (ConnectorExit.retriesExceeded, ⟨4, 4, 0, true⟩) ∧
    connector (retryConfig 3) (quietAttempts [false, false, false]) =
      (ConnectorExit.running, ⟨3, 3, 0, false⟩) ∧
    connector (retryConfig 3) (quietAttempts [false, true, false, false, false]) =
      (ConnectorExit.running, ⟨3, 5, 1, false⟩) := by
  have hconn : connector c (quietAttempts outs) =
      connectorLoop (m : Int) {} (quietAttempts outs) := by
    simp [connector, hc, hmax]
  have hs := connectorLoop_scan m hm outs {}
  change (_ = if (scan (fun b => !b) m 0 0 outs).1 then _ else _) ∧
    (_ = (scan (fun b => !b) m 0 0 outs).2.1) ∧ (_ = (scan (fun b => !b) m 0 0 outs).2.2) ∧
    (_ = ((scan (fun b => !b) m 0 0 outs).1 || false)) at hs
  obtain ⟨h1, h2, h3, h4⟩ := hs
  obtain ⟨sf, st⟩ := scan_spec (fun b => !b) m outs
  rw [hconn]
  simp only [Bool.or_false] at h4
  refine ⟨⟨fun hs => ?_, fun ⟨n, hn, htr⟩ => ?_⟩, fun hs => ?_, fun hs => ?_, ?_, ?_, ?_⟩
  · rw [h4] at hs
    obtain ⟨hle, _, htr, _⟩ := st hs
    exact ⟨_, hle, htr⟩
  · rw [h4]
    by_contra hne
    have hf : (scan (fun b => !b) m 0 0 outs).1 = false := by simpa using hne
    have := (sf hf).2.2 n hn
    omega
  · rw [h4] at hs
    obtain ⟨hle, _, htr, hall⟩ := st hs
    rw [h1, h3, hs]
    exact ⟨rfl, hle, htr, hall⟩
  · rw [h4] at hs
    obtain ⟨he, hn, _⟩ := sf hs
    rw [h1, h2, h3, hs]
    exact ⟨by simp, hn, he⟩
  · decide
  · decide
  · decide

/-- C7 at `m = 3` with four failed connects: the flag is set. -/
theorem connector_retry_shutdown_witness :
    (0 < 3) ∧
    ((connector (retryConfig 3) (quietAttempts [false, false, false, false])).2.Shutdown = true ↔
      ∃ n, n ≤ [false, false, false, false].length ∧
        trailing (fun b => !b) ([false, false, false, false].take n) = 3 + 1) :=
  ⟨by decide,
    (connector_retry_shutdown (retryConfig 3) _ 3 rfl rfl (by decide)
      [false, false, false, false]).1⟩

/-! ## C8: the error ceiling of `Poller` -/

/-- C8: with the shutdown flag unset, a batch size above zero and enough cycles to
read all the retrieval results `rs`, `Poller` returns for errors exactly when some
retrieval is the 11th error in a row; it returns at the first such retrieval, never
after ten or fewer consecutive errors, and otherwise it has read every result, waits
for the next and its counter is the length of the current run of errors (so 0 after
any successful retrieval).  The batch size, hence where the cycles end, is arbitrary. -/
theorem poller_error_ceiling (c : DaemonConfig) (o : Options) (hc : c.Options = some o)
    (hmax : 0 < o.PollMaxMessages) (rs : List Retrieval) (fuel : Nat)
    (hfuel : rs.length < fuel) :
    ((Poller c (fun _ => false) rs fuel).1 = PollerExit.tooManyErrors ↔
      ∃ n, n ≤ rs.length ∧ trailing Retrieval.isError (rs.take n) = 11) ∧
    ((Poller c (fun _ => false) rs fuel).1 = PollerExit.tooManyErrors →
      (Poller c (fun _ => false) rs fuel).2.queues.length ≤ rs.length ∧
      trailing Retrieval.isError
        (rs.take (Poller c (fun _ => false) rs fuel).2.queues.length) = 11 ∧
      ∀ j, j < (Poller c (fun _ => false) rs fuel).2.queues.length →
        trailing Retrieval.isError (rs.take j) ≤ 10) ∧
    ((Poller c (fun _ => false) rs fuel).1 ≠ PollerExit.tooManyErrors →
      (Poller c (fun _ => false) rs fuel).1 = PollerExit.blocked ∧
      (Poller c (fun _ => false) rs fuel).2.queues.length = rs.length ∧
      (Poller c (fun _ => false) rs fuel).2.errorCount = trailing Retrieval.isError rs) := by
  have hP : Poller c (fun _ => false) rs fuel =
      pollerLoop "inbox" o.PollMaxMessages (fun _ => false) fuel 0 {} rs := by
    simp [Poller, hc]
  have hmax' : 0 < o.PollMaxMessages.toNat := by omega
  have h := pollerLoop_scan "inbox" o.PollMaxMessages (fun _ => false) (fun _ => rfl) hmax'
    fuel 0 {} rs hfuel
  obtain ⟨sf, st⟩ := scan_spec Retrieval.isError 10 rs
  rw [hP]
  change (_ ∧ scan Retrieval.isError 10 0 0 rs = _) ∨
    (_ ∧ scan Retrieval.isError 10 0 0 rs = _) at h
  rcases h with ⟨hex, hsc⟩ | ⟨hex, hsc⟩
  · have ht : (scan Retrieval.isError 10 0 0 rs).1 = true := by rw [hsc]
    obtain ⟨hle, _, htr, hall⟩ := st ht
    have hq : (scan Retrieval.isError 10 0 0 rs).2.2 =
        (pollerLoop "inbox" o.PollMaxMessages (fun _ => false) fuel 0 {} rs).2.queues.length := by
      rw [hsc]
    rw [hq] at hle htr hall
    refine ⟨⟨fun _ => ⟨_, hle, htr⟩, fun _ => hex⟩, fun _ => ⟨hle, htr, hall⟩, fun hne => ?_⟩
    exact absurd hex hne
  · have hf : (scan Retrieval.isError 10 0 0 rs).1 = false := by rw [hsc]
    obtain ⟨he, hn, hall⟩ := sf hf
    have hq : (scan Retrieval.isError 10 0 0 rs).2.2 =
        (pollerLoop "inbox" o.PollMaxMessages (fun _ => false) fuel 0 {} rs).2.queues.length := by
      rw [hsc]
    have hE : (scan Retrieval.isError 10 0 0 rs).2.1 =
        (pollerLoop "inbox" o.PollMaxMessages (fun _ => false) fuel 0 {} rs).2.errorCount := by
      rw [hsc]
    refine ⟨⟨fun hx => ?_, fun ⟨n, hn', htr⟩ => ?_⟩, fun hx => ?_, fun _ => ⟨hex, ?_, ?_⟩⟩
    · rw [hex] at hx; cases hx
    · have := hall n hn'; omega
    · rw [hex] at hx; cases hx
    · rw [← hq]; exact hn
    · rw [← hE]; exact he

/-- C8 at a batch size of 10 and eleven failed retrievals: `Poller` returns for errors,
in its second cycle, after the eleventh retrieval. -/
theorem poller_error_ceiling_witness :
    ((0 : Int) < 10) ∧ (List.replicate 11 Retrieval.error).length < 12 ∧
    ((Poller sampleConfig (fun _ => false) (List.replicate 11 Retrieval.error) 12).1 =
        PollerExit.tooManyErrors →
      (Poller sampleConfig (fun _ => false)
          (List.replicate 11 Retrieval.error) 12).2.queues.length ≤
        (List.replicate 11 Retrieval.error).length ∧
      trailing Retrieval.isError
        ((List.replicate 11 Retrieval.error).take
          (Poller sampleConfig (fun _ => false)
            (List.replicate 11 Retrieval.error) 12).2.queues.length) = 11 ∧
      ∀ j, j < (Poller sampleConfig (fun _ => false)
            (List.replicate 11 Retrieval.error) 12).2.queues.length →
        trailing Retrieval.isError ((List.replicate 11 Retrieval.error).take j) ≤ 10) ∧
    (Poller sampleConfig (fun _ => false) (List.replicate 11 Retrieval.error) 12).1 =
      PollerExit.tooManyErrors ∧
    (Poller sampleConfig (fun _ => false) (List.replicate 11 Retrieval.error) 12).2.sleeps = 1 :=
  ⟨by decide, by decide,
    (poller_error_ceiling sampleConfig _ rfl (by decide) (List.replicate 11 Retrieval.error) 12
      (by decide)).2.1,
    by decide, by decide⟩

/-! ## C9 and C10: the options of the loaded configuration -/

/-- C9 at the configuration file of the examples: `Load` accepts it with the queue
`mail`, and the retrievals that `Poller` issues on the loaded configuration name the
queue `inbox`, the constant of the source, not the configured queue. -/
theorem poller_ignores_poll_queue :
    Load sampleFS "./mailer.json" = Result.ok sampleConfig ∧
    sampleConfig.Options.map (fun o => o.PollQueue) = some "mail" ∧
    (Poller sampleConfig (fun _ => false) [Retrieval.empty, Retrieval.error] 3).2.queues =
      ["inbox", "inbox"] := by
  decide

/-- C10 at the configuration file of the examples, whose `poll-max-messages` is the
positive value 1: `Load` replaces it by the default 10. -/
theorem load_replaces_poll_max_messages_one :
    sampleFileConfig.Options.map (fun o => o.PollMaxMessages) = some 1 ∧
    sampleFS.decode "mailer.json content" = some sampleFileConfig ∧
    (∃ c o, Load sampleFS "./mailer.json" = Result.ok c ∧ c.Options = some o ∧
      o.PollMaxMessages = 10) := by
  refine ⟨by decide, by decide, sampleConfig, _, by decide, rfl, rfl⟩

/-! ## C5, C6 and C3: panics in the decoding of one delivery -/

/-- C5 at a delivery whose body is not well-formed: `extractEmailMesssage` returns no
message and an error, and `process` goes on to use the nil message and panics; it does
not return at that point. -/
theorem process_uses_nil_message :
    extractEmailMesssage (sampleWorld true) { MessageId := "m1", Body := "not json" } =
      (none, some "Error Decoding Email Request") ∧
    process (sampleWorld true) sampleConfig { MessageId := "m1", Body := "not json" } =
      { acks := 0, result := Result.panic "nil pointer dereference" } :=
  ⟨rfl, by decide⟩

/-- C6 at a `params` block with a value that is not a string: `setEmailMaps` panics for
`d = "params"`, while for `d = "headers"` the same entry is skipped and the string
entry next to it is stored under its lower-cased key. -/
theorem setEmailMaps_params_panics :
    setEmailMaps {} [("count", Value.number 1), ("X-Tag", Value.string "v")] "params" =
      Result.panic "interface conversion: interface is not string" ∧
    setEmailMaps {} [("count", Value.number 1), ("X-Tag", Value.string "v")] "headers" =
      Result.ok { headers := [("x-tag", "v")] } := by
  decide

/-- C3 at a payload without `template` whose `params` block holds a number:
`toEmailMessage` panics instead of returning an error, under both readings of the
setters and also with the entries visited in the reverse order. -/
theorem toEmailMessage_panics_without_template :
    toEmailMessage true noTemplatePayload =
      Result.panic "interface conversion: interface is not string" ∧
    toEmailMessage false noTemplatePayload =
      Result.panic "interface conversion: interface is not string" ∧
    toEmailMessage true noTemplatePayload.reverse =
      Result.panic "interface conversion: interface is not string" ∧
    toEmailMessage false noTemplatePayload.reverse =
      Result.panic "interface conversion: interface is not string" ∧
    (∀ e ∈ noTemplatePayload, ToLower e.1 ≠ "template") := by
  decide

/-! ## C2 and C4: what a decoded command holds -/

/-- C2 fails as stated: the example of the spec alone is refused for its missing
fields, and with the required fields added the command has `params["foo"] = "a"`, the
top-level value, not the `"b"` of the explicit `params` block; this in both orders of
the entries and under both readings of the setters. -/
theorem explicit_params_overridden :
    toEmailMessage true [("foo", .string "a"), ("params", .object [("foo", .string "b")])] =
      Result.err "Invalid Email Message Request" ∧
    toEmailMessage false [("foo", .string "a"), ("params", .object [("foo", .string "b")])] =
      Result.err "Invalid Email Message Request" ∧
    paramOf (toEmailMessage true overridePayload) "foo" = some "a" ∧
    paramOf (toEmailMessage true overridePayload) "foo" ≠ some "b" ∧
    paramOf (toEmailMessage false overridePayload) "foo" = some "a" ∧
    paramOf (toEmailMessage false overridePayload) "foo" ≠ some "b" ∧
    paramOf (toEmailMessage true overridePayloadReordered) "foo" = some "a" ∧
    paramOf (toEmailMessage false overridePayloadReordered) "foo" = some "a" := by
  decide

/-- C2 (amended) on the completed example of the spec: the command is returned and it
has the top-level value under `foo`. -/
theorem toplevel_param_wins_witness :
    ("foo", Value.string "a") ∈ overridePayload ∧ ToLower "foo" ∉ reserved ∧
    toEmailMessage true overridePayload = Result.ok overrideCommand ∧
    mapGet (ToLower "foo") overrideCommand.params = some "a" :=
  ⟨by simp [overridePayload], by decide, by decide,
    toplevel_param_wins true overridePayload "foo" "a" overrideCommand
      (by simp [overridePayload]) (by decide)
      (by
        intro k' s hmem hk
        simp only [overridePayload, List.mem_cons, Prod.mk.injEq, Value.string.injEq,
          List.mem_singleton, List.mem_nil_iff, or_false, reduceCtorEq, and_false] at hmem
        rcases hmem with ⟨rfl, rfl⟩ | ⟨rfl, rfl⟩ | ⟨rfl, rfl⟩ | ⟨rfl, rfl⟩
        · exact absurd hk (by decide)
        · exact absurd hk (by decide)
        · exact absurd hk (by decide)
        · rfl)
      (by decide)⟩

/-- C4 fails as stated: in this payload the keys are distinct and `template`, `to` and
`from` are non-empty strings, yet `to` is white space only and `toEmailMessage` returns
an error, under both readings of the setters. -/
theorem blank_to_is_refused :
    (blankToPayload.map (fun e => ToLower e.1)).Nodup ∧
    blankToPayload.map (fun e => (ToLower e.1, e.2.isString, e.2.str != "")) =
      [("template", true, true), ("to", true, true), ("from", true, true)] ∧
    toEmailMessage true blankToPayload = Result.err "Missing Value for to" ∧
    toEmailMessage false blankToPayload = Result.err "Invalid Email Message Request" := by
  decide

/-- C4 (amended) on a payload in mixed case: the command is returned and its required
fields are the trimmed values in their original case. -/
theorem toEmailMessage_valid_fields_witness :
    (mixedCasePayload.map (fun e => ToLower e.1)).Nodup ∧
    (∀ e ∈ mixedCasePayload, validEntry e = true) ∧
    (∃ msg, toEmailMessage true mixedCasePayload = Result.ok msg ∧
      (∀ e ∈ mixedCasePayload, ToLower e.1 = "template" → msg.template = TrimSpace e.2.str) ∧
      (∀ e ∈ mixedCasePayload, ToLower e.1 = "to" → msg.to_ = TrimSpace e.2.str) ∧
      (∀ e ∈ mixedCasePayload, ToLower e.1 = "from" → msg.from_ = TrimSpace e.2.str)) ∧
    toEmailMessage true mixedCasePayload =
      Result.ok { template := "welcome", to_ := "A@x.com", from_ := "B@x.com", cc := "c@x.com",
                  headers := [("x-tag", "v")], params := [("note", "n"), ("name", "x")] } :=
  ⟨by decide, by decide,
    toEmailMessage_valid_fields true mixedCasePayload (by decide) (by decide)
      ⟨("Template", .string " welcome "), by simp [mixedCasePayload], by decide⟩
      ⟨("TO", .string " A@x.com"), by simp [mixedCasePayload], by decide⟩
      ⟨("from", .string "B@x.com "), by simp [mixedCasePayload], by decide⟩,
    by decide⟩

/-! ## C1: acknowledgment only after a successful send -/

/-- C1 at a delivery whose body is not well-formed: the envelope does not decode, which
is one of the cases other than a successful send, and `process` neither returns an
error nor returns at all: it panics on the nil message, with no `Ack`, under both
readings of the setters.  In the four cases that the claim lists (payload not a
mapping, validation error, missing template, send error) it returns an error with no
`Ack`, and after a successful send it calls `Ack` once. -/
theorem process_panics_on_undecodable_body :
    (extractEmailMesssage (sampleWorld true) { MessageId := "m9", Body := "garbled" }).1.isNone
      = true ∧
    (extractEmailMesssage (sampleWorld true) { MessageId := "m9", Body := "garbled" }).2 =
      some "Error Decoding Email Request" ∧
    process (sampleWorld true) sampleConfig { MessageId := "m9", Body := "garbled" } =
      { acks := 0, result := Result.panic "nil pointer dereference" } ∧
    process (sampleWorld false) sampleConfig { MessageId := "m9", Body := "garbled" } =
      { acks := 0, result := Result.panic "nil pointer dereference" } ∧
    process (sampleWorld true) sampleConfig { MessageId := "m2", Body := "list" } =
      { acks := 0, result := Result.err "Invalid Massage Format" } ∧
    process (sampleWorld true) sampleConfig { MessageId := "m6", Body := "bad-field" } =
      { acks := 0, result := Result.err "Invalid Value for to field" } ∧
    process (sampleWorld true) sampleConfig { MessageId := "m3", Body := "no-template" } =
      { acks := 0, result := Result.err "Invalid Template [missing]" } ∧
    process (sampleWorld true) sampleConfig { MessageId := "m4", Body := "refused" } =
      { acks := 0, result := Result.err "550 mailbox unavailable" } ∧
    process (sampleWorld true) sampleConfig { MessageId := "m1", Body := "welcome" } =
      { acks := 1, result := Result.ok () } := by
  decide

/-- What `process` does with `Ack` for every delivery: it calls it at most once, and
exactly when the envelope decoded, its payload pointer is set and points to a mapping,
`toEmailMessage` returned a command and `SendMail` returned no error.  When the payload
is not a mapping, when `toEmailMessage` returns an error, and when `SendMail` returns
an error (a missing template is one such error), `process` returns that error; when
the payload pointer is nil it panics. -/
theorem process_ack_cases (W : World) (c : DaemonConfig) (d : Delivery) :
    (process W c d).acks ≤ 1 ∧
    ((process W c d).acks = 1 ↔
      ∃ id s msg, (extractEmailMesssage W d).1.map (fun q => q.id) = some id ∧
        W.unmarshal d.Body = some (id, some (Value.object s)) ∧
        toEmailMessage W.strict s = Result.ok msg ∧ SendMail W c msg = Result.ok ()) ∧
    (∀ id v, W.unmarshal d.Body = some (id, some v) → (∀ s, v ≠ Value.object s) →
      process W c d = { acks := 0, result := Result.err "Invalid Massage Format" }) ∧
    (∀ id, W.unmarshal d.Body = some (id, none) →
      process W c d = { acks := 0, result := Result.panic "nil pointer dereference" }) ∧
    (∀ id s e, W.unmarshal d.Body = some (id, some (Value.object s)) →
      toEmailMessage W.strict s = Result.err e →
      process W c d = { acks := 0, result := Result.err e }) ∧
    (∀ id s msg e, W.unmarshal d.Body = some (id, some (Value.object s)) →
      toEmailMessage W.strict s = Result.ok msg → SendMail W c msg = Result.err e →
      process W c d = { acks := 0, result := Result.err e }) ∧
    (∀ msg server, c.SMTPRelay.bind (fun r => r.Server) = some server →
      templatePath W.fs c msg.template "text" = Result.ok "" →
      templatePath W.fs c msg.template "html" = Result.ok "" →
      SendMail W c msg = Result.err ("Invalid Template [" ++ msg.template ++ "]")) := by
  refine ⟨?_, ?_, ?_, ?_, ?_, ?_, ?_⟩
  · unfold process extractEmailMesssage
    cases hu : W.unmarshal d.Body with
    | none => simp
    | some a =>
      obtain ⟨id, v⟩ := a
      cases v with
      | none => simp
      | some v =>
        cases v <;> simp
        rename_i s
        cases ht : toEmailMessage W.strict s <;> simp
        rename_i msg
        cases hs : SendMail W c msg <;> simp
  · unfold process extractEmailMesssage
    cases hu : W.unmarshal d.Body with
    | none => simp
    | some a =>
      obtain ⟨id, v⟩ := a
      cases v with
      | none => simp
      | some v =>
        cases v <;> simp
        rename_i s
        cases ht : toEmailMessage W.strict s <;> simp
        rename_i msg
        cases hs : SendMail W c msg <;> simp
  · intro id v hu hv
    unfold process extractEmailMesssage
    rw [hu]
    cases v <;> simp
    rename_i s
    exact absurd rfl (hv s)
  · intro id hu
    unfold process extractEmailMesssage
    rw [hu]
  · intro id s e hu ht
    unfold process extractEmailMesssage
    rw [hu]
    simp [ht]
  · intro id s msg e hu ht hs
    unfold process extractEmailMesssage
    rw [hu]
    simp [ht, hs]
  · intro msg server hr h1 h2
    unfold SendMail
    rw [hr, h1, h2]
    simp

/-- The end-to-end scenario of the spec: the delivery decodes, its template has a text
file, the relay accepts it, and `Ack` is called once; an envelope without a payload
makes `process` panic. -/
theorem process_ack_cases_on_samples :
    (process (sampleWorld true) sampleConfig { MessageId := "m1", Body := "welcome" }).acks = 1 ∧
    process (sampleWorld true) sampleConfig { MessageId := "m5", Body := "no-payload" } =
      { acks := 0, result := Result.panic "nil pointer dereference" } :=
  ⟨(process_ack_cases (sampleWorld true) sampleConfig
        { MessageId := "m1", Body := "welcome" }).2.1.2
      ⟨"id-1", welcomePayload,
        { template := "welcome", locale := "en", to_ := "a@x.com", from_ := "b@x.com",
          params := [("extra", "v1")] },
        rfl, rfl, by decide, by decide⟩,
    by decide⟩

/-! ## Supporting facts for C3, C5, C6, C9 and C10

The claims above are settled at concrete inputs; these lemmas give the behaviour
around them for every input. -/

/-- A setter that succeeds stores the trimmed value. -/
theorem setter_ok (strict : Bool) (field s : String) (f : String → EmailMessage)
    (m1 : EmailMessage) (h : (setterValue strict field s).map f = Except.ok m1) :
    m1 = f (TrimSpace s) := by
  unfold setterValue at h
  by_cases hc : (strict && TrimSpace s == "") = true
  · simp [hc, Except.map] at h
  · simp [hc, Except.map] at h
    exact h.symm

/-- One step of the loop of `toEmailMessage` that succeeds: under its own key each of
`template`, `to`, `from` got a string and holds its trimmed value, under any other key
it is unchanged. -/
theorem switchField_fields (strict : Bool) (k : String) (v : Value) (m : EmailMessage)
    (p : List (String × Value)) (m1 : EmailMessage) (p1 : List (String × Value))
    (h : switchField strict k v m p = Result.ok (m1, p1)) :
    ((k = "template" → v.isString = true ∧ m1.template = TrimSpace v.str) ∧
      (k ≠ "template" → m1.template = m.template)) ∧
    ((k = "to" → v.isString = true ∧ m1.to_ = TrimSpace v.str) ∧
      (k ≠ "to" → m1.to_ = m.to_)) ∧
    ((k = "from" → v.isString = true ∧ m1.from_ = TrimSpace v.str) ∧
      (k ≠ "from" → m1.from_ = m.from_)) := by
  unfold switchField at h
  split_ifs at h with h1 h2 h3 h4 h5 h6 h7 h8
  · subst h1
    cases v <;> simp at h
    have := setter_ok _ _ _ _ _ (afterSetter_ok _ _ _ _ h).1
    subst this
    simp [Value.isString, Value.str]
  · subst h2
    cases v <;> simp at h
    have := setter_ok _ _ _ _ _ (afterSetter_ok _ _ _ _ h).1
    subst this
    simp [Value.isString, Value.str]
  · subst h3
    cases v <;> simp at h
    have := setter_ok _ _ _ _ _ (afterSetter_ok _ _ _ _ h).1
    subst this
    simp [Value.isString, Value.str]
  · subst h4
    cases v <;> simp at h
    have := setter_ok _ _ _ _ _ (afterSetter_ok _ _ _ _ h).1
    subst this
    simp [Value.isString, Value.str]
  · subst h5
    cases v <;> simp at h
    have := setter_ok _ _ _ _ _ (afterSetter_ok _ _ _ _ h).1
    subst this
    simp [Value.isString, Value.str]
  · subst h6
    cases v <;> simp at h
    have := setter_ok _ _ _ _ _ (afterSetter_ok _ _ _ _ h).1
    subst this
    simp [Value.isString, Value.str]
  · subst h7
    cases v <;> simp at h
    obtain ⟨f1, f2, f3⟩ := setEmailMaps_fields _ _ _ _ (afterMaps_ok _ _ _ _ h).1
    simp [f1, f2, f3]
  · subst h8
    cases v <;> simp at h
    obtain ⟨f1, f2, f3⟩ := setEmailMaps_fields _ _ _ _ (afterMaps_ok _ _ _ _ h).1
    simp [f1, f2, f3]
  · cases v <;> simp at h <;> obtain ⟨rfl, _⟩ := h <;> simp [h1, h3, h4]


/-- The loop of `toEmailMessage`, when it succeeds: every entry under the key of a
required field was a string, and a required field that was empty stays empty when all
its entries are the empty string. -/
theorem toEmailMessageLoop_required (strict : Bool) (src : List (String × Value)) :
    ∀ (m : EmailMessage) (p : List (String × Value)) (m' : EmailMessage)
      (p' : List (String × Value)),
      toEmailMessageLoop strict src m p = Result.ok (m', p') →
      ((∀ e ∈ src, ToLower e.1 = "template" → e.2.isString = true) ∧
        ((∀ e ∈ src, ToLower e.1 = "template" → e.2 = Value.string "") →
          m.template = "" → m'.template = "")) ∧
      ((∀ e ∈ src, ToLower e.1 = "to" → e.2.isString = true) ∧
        ((∀ e ∈ src, ToLower e.1 = "to" → e.2 = Value.string "") → m.to_ = "" → m'.to_ = "")) ∧
      ((∀ e ∈ src, ToLower e.1 = "from" → e.2.isString = true) ∧
        ((∀ e ∈ src, ToLower e.1 = "from" → e.2 = Value.string "") →
          m.from_ = "" → m'.from_ = "")) := by
  induction src with
  | nil =>
    intro m p m' p' h
    simp [toEmailMessageLoop] at h
    obtain ⟨rfl, _⟩ := h
    simp
  | cons e rest ih =>
    intro m p m' p' h
    obtain ⟨k, v⟩ := e
    obtain ⟨m1, p1, hsw, hrest⟩ := toEmailMessageLoop_cons strict k v rest m p _ h
    obtain ⟨it, ito, ifrom⟩ := ih m1 p1 m' p' hrest
    obtain ⟨ft, fto, ffrom⟩ := switchField_fields strict _ v m p m1 p1 hsw
    have key : ∀ (f : String) (g : EmailMessage → String),
        ((ToLower k = f → v.isString = true ∧ g m1 = TrimSpace v.str) ∧
          (ToLower k ≠ f → g m1 = g m)) →
        ((∀ e ∈ rest, ToLower e.1 = f → e.2.isString = true) ∧
          ((∀ e ∈ rest, ToLower e.1 = f → e.2 = Value.string "") → g m1 = "" → g m' = "")) →
        ((∀ e ∈ (k, v) :: rest, ToLower e.1 = f → e.2.isString = true) ∧
          ((∀ e ∈ (k, v) :: rest, ToLower e.1 = f → e.2 = Value.string "") →
            g m = "" → g m' = "")) := by
      intro f g ⟨s1, s2⟩ ⟨i1, i2⟩
      refine ⟨fun e he hf => ?_, fun hall hm => ?_⟩
      · simp only [List.mem_cons] at he
        rcases he with rfl | he
        · exact (s1 hf).1
        · exact i1 e he hf
      · apply i2 (fun e he => hall e (by simp [he]))
        by_cases hk : ToLower k = f
        · have hv : v = Value.string "" := hall (k, v) (by simp) hk
          rw [(s1 hk).2, hv]
          decide
        · rw [s2 hk]; exact hm
    exact ⟨key "template" (fun m => m.template) ft it, key "to" (fun m => m.to_) fto ito,
      key "from" (fun m => m.from_) ffrom ifrom⟩

/-- No command leaves `toEmailMessage` for a payload in which one of `template`, `to`,
`from` has an entry that is not a string, or has no entry other than the empty string
(none at all when the field is absent). -/
theorem toEmailMessage_required (strict : Bool) (src : List (String × Value)) (f : String)
    (hf : f = "template" ∨ f = "to" ∨ f = "from")
    (hbad : (∃ e ∈ src, ToLower e.1 = f ∧ e.2.isString = false) ∨
      (∀ e ∈ src, ToLower e.1 = f → e.2 = Value.string ""))
    (msg : EmailMessage) : toEmailMessage strict src ≠ Result.ok msg := by
  intro hok
  obtain ⟨m1, p1, hloop, hset, hvalid⟩ := toEmailMessage_ok strict src msg hok
  obtain ⟨⟨t1, t2⟩, ⟨to1, to2⟩, ⟨f1, f2⟩⟩ :=
    toEmailMessageLoop_required strict src {} [] m1 p1 hloop
  obtain ⟨g1, g2, g3⟩ := setEmailMaps_fields "params" p1 m1 msg hset
  simp only [EmailMessage.IsValid, Bool.and_eq_true, bne_iff_ne, ne_eq] at hvalid
  obtain ⟨⟨v1, v2⟩, v3⟩ := hvalid
  rcases hbad with ⟨e, he, hk, hns⟩ | hall
  · rcases hf with rfl | rfl | rfl
    · have := t1 e he hk; rw [hns] at this; cases this
    · have := to1 e he hk; rw [hns] at this; cases this
    · have := f1 e he hk; rw [hns] at this; cases this
  · rcases hf with rfl | rfl | rfl
    · exact v1 (by rw [g1]; exact t2 hall rfl)
    · exact v2 (by rw [g2]; exact to2 hall rfl)
    · exact v3 (by rw [g3]; exact f2 hall rfl)


/-- For `d = "headers"` the function `setEmailMaps` returns without error on every
mapping. -/
theorem setEmailMaps_headers_total (l : List (String × Value)) :
    ∀ m, ∃ m', setEmailMaps m l "headers" = Result.ok m' := by
  induction l with
  | nil => intro m; exact ⟨m, by simp [setEmailMaps]⟩
  | cons e l ih =>
    intro m
    obtain ⟨k, v⟩ := e
    unfold setEmailMaps
    cases v <;> simp [EmailMessage.SetHeader] <;> exact ih _

/-- For `d = "headers"` a string entry of the mapping is stored under its lower-cased
key, when the string entries with that lower-cased key agree on the value. -/
theorem setEmailMaps_headers_lookup (kk a : String) (l : List (String × Value)) :
    ∀ m m', setEmailMaps m l "headers" = Result.ok m' →
      (∀ e ∈ l, ToLower e.1 = kk → e.2.isString = true → e.2 = Value.string a) →
      (mapGet kk m.headers = some a ∨ ∃ e ∈ l, ToLower e.1 = kk ∧ e.2.isString = true) →
      mapGet kk m'.headers = some a := by
  induction l with
  | nil =>
    intro m m' h _ hor
    simp [setEmailMaps] at h
    subst h
    rcases hor with h | ⟨e, he, _⟩
    · exact h
    · simp at he
  | cons e l ih =>
    intro m m' h hall hor
    obtain ⟨k, v⟩ := e
    have hl : ∀ e ∈ l, ToLower e.1 = kk → e.2.isString = true → e.2 = Value.string a :=
      fun e he => hall e (by simp [he])
    have skip : v.isString = false → setEmailMaps m l "headers" = Result.ok m' →
        mapGet kk m'.headers = some a := by
      intro hv h'
      apply ih _ _ h' hl
      rcases hor with h0 | ⟨e, he, hek, hes⟩
      · exact Or.inl h0
      · simp only [List.mem_cons] at he
        rcases he with rfl | he
        · rw [hv] at hes; cases hes
        · exact Or.inr ⟨e, he, hek, hes⟩
    unfold setEmailMaps at h
    cases v with
    | string x =>
      simp [EmailMessage.SetHeader] at h
      apply ih _ _ h hl
      by_cases hk : ToLower k = kk
      · left
        have := hall (k, Value.string x) (by simp) hk rfl
        simp only [Value.string.injEq] at this
        subst this
        subst hk
        exact mapGet_mapSet_same _ _ _
      · rcases hor with h0 | ⟨e, he, hek, hes⟩
        · left
          simp only
          rw [mapGet_mapSet_other kk (ToLower k) (fun h => hk h.symm)]
          exact h0
        · right
          simp only [List.mem_cons] at he
          rcases he with rfl | he
          · exact absurd hek hk
          · exact ⟨e, he, hek, hes⟩
    | null => exact skip rfl (by simpa using h)
    | bool b => exact skip rfl (by simpa using h)
    | number n => exact skip rfl (by simpa using h)
    | array xs => exact skip rfl (by simpa using h)
    | object o => exact skip rfl (by simpa using h)

/-- For `d = "params"` the function `setEmailMaps` panics on every mapping that holds a
value that is not a string. -/
theorem setEmailMaps_params_nonstring (l : List (String × Value)) :
    ∀ m, (∃ e ∈ l, e.2.isString = false) →
      setEmailMaps m l "params" = Result.panic "interface conversion: interface is not string" := by
  induction l with
  | nil => intro m ⟨e, he, _⟩; simp at he
  | cons e l ih =>
    intro m ⟨e0, he0, hns⟩
    obtain ⟨k, v⟩ := e
    unfold setEmailMaps
    cases v with
    | string x =>
      simp only [List.mem_cons] at he0
      rcases he0 with rfl | he0
      · simp [Value.isString] at hns
      · simpa [EmailMessage.SetParameter] using ih _ ⟨e0, he0, hns⟩
    | null => simp
    | bool b => simp
    | number n => simp
    | array xs => simp
    | object o => simp

/-- Whenever the envelope does not decode, `process` panics on the nil message. -/
theorem process_decode_failure (W : World) (c : DaemonConfig) (d : Delivery)
    (h : W.unmarshal d.Body = none) :
    process W c d = { acks := 0, result := Result.panic "nil pointer dereference" } := by
  simp [process, extractEmailMesssage, h]

/-- What the defaults of `Load` do to the three options, for every `options` block:
the two intervals are kept when positive, the batch size only when above 1. -/
theorem applyOptionDefaults_spec (o : Options) :
    (applyOptionDefaults o).ConnectionRetryInterval =
      (if 0 < o.ConnectionRetryInterval then o.ConnectionRetryInterval else 60) ∧
    (applyOptionDefaults o).PollInterval =
      (if 0 < o.PollInterval then o.PollInterval else 10) ∧
    (applyOptionDefaults o).PollMaxMessages =
      (if 1 < o.PollMaxMessages then o.PollMaxMessages else 10) ∧
    (applyOptionDefaults o).PollQueue = o.PollQueue ∧
    (applyOptionDefaults o).ConnectionRetriesMax = o.ConnectionRetriesMax := by
  unfold applyOptionDefaults
  by_cases h1 : o.ConnectionRetryInterval ≤ 0 <;> by_cases h2 : o.PollMaxMessages ≤ 1 <;>
    by_cases h3 : o.PollInterval ≤ 0 <;>
    simp [h1, h2, h3, not_lt.mpr, lt_of_not_ge]

/-- Every retrieval of `Poller` names the queue `inbox`, whatever the configuration. -/
theorem batch_queues (name : String) :
    ∀ (slots : Nat) (st : PollerState) (rs : List Retrieval),
      (∀ q ∈ st.queues, q = name) → ∀ q ∈ (batch name slots st rs).2.1.queues, q = name := by
  intro slots
  induction slots with
  | zero => intro st rs h; simpa [batch] using h
  | succ slots ih =>
    intro st rs h
    have h' : ∀ q ∈ st.queues ++ [name], q = name := by
      intro q hq
      simp only [List.mem_append, List.mem_singleton] at hq
      rcases hq with hq | hq
      · exact h q hq
      · exact hq
    cases rs with
    | nil => simpa [batch] using h
    | cons r rs =>
      cases r with
      | error =>
        by_cases hl : st.errorCount + 1 > 10
        · simpa [batch, hl] using h'
        · simp only [batch, hl, if_false]
          exact ih _ rs h'
      | empty => simpa [batch] using h'
      | message d =>
        simp only [batch]
        exact ih _ rs h'

/-- The loop of `Poller` passes only `name` to the retrievals. -/
theorem pollerLoop_queues (name : String) (maxMessages : Int) (shutdown : Nat → Bool) :
    ∀ (fuel cycle : Nat) (st : PollerState) (rs : List Retrieval),
      (∀ q ∈ st.queues, q = name) →
      ∀ q ∈ (pollerLoop name maxMessages shutdown fuel cycle st rs).2.queues, q = name := by
  intro fuel
  induction fuel with
  | zero => intro cycle st rs h; simpa [pollerLoop] using h
  | succ fuel ih =>
    intro cycle st rs h
    have hb := batch_queues name maxMessages.toNat st rs h
    unfold pollerLoop
    by_cases hs : shutdown cycle = true
    · simpa [hs] using h
    · simp only [hs, Bool.false_eq_true, if_false]
      rcases hr : batch name maxMessages.toNat st rs with ⟨ex, st', rs'⟩
      rw [hr] at hb
      cases ex with
      | tooManyErrors => exact hb
      | blocked => exact hb
      | done => exact ih (cycle + 1) { st' with sleeps := st'.sleeps + 1 } rs' hb

/-- Every retrieval that `Poller` issues names the queue `inbox`, whatever the
configuration says. -/
theorem Poller_queues (c : DaemonConfig) (shutdown : Nat → Bool) (rs : List Retrieval)
    (fuel : Nat) : ∀ q ∈ (Poller c shutdown rs fuel).2.queues, q = "inbox" := by
  unfold Poller
  cases c.Options with
  | none => simp
  | some o => exact pollerLoop_queues "inbox" _ shutdown fuel 0 {} rs (by simp)

/-! ## C11: failed retrievals and the batch size -/

/-- Among retrievals none of which found the queue empty, the deliveries and the errors
add up to the number of retrievals. -/
theorem deliveries_add_errors (l : List Retrieval) (h : ∀ r ∈ l, r ≠ Retrieval.empty) :
    (l.filterMap Retrieval.delivery).length + l.countP Retrieval.isError = l.length := by
  induction l with
  | nil => rfl
  | cons r l ih =>
    have ih' := ih (fun r hr => h r (by simp [hr]))
    cases r with
    | error => simp [Retrieval.delivery, Retrieval.isError] at ih' ⊢; omega
    | empty => exact absurd rfl (h Retrieval.empty (by simp))
    | message d => simp [Retrieval.delivery, Retrieval.isError] at ih' ⊢; omega

/-- One batch of `Poller` that reads `slots` results, none of them an empty queue, and
does not pass the error ceiling: it makes exactly `slots` retrievals and hands on the
deliveries among them. -/
theorem batch_full (name : String) :
    ∀ (slots : Nat) (st : PollerState) (rs : List Retrieval),
      slots ≤ rs.length → (∀ r ∈ rs.take slots, r ≠ Retrieval.empty) →
      (batch name slots st rs).1 ≠ BatchExit.tooManyErrors →
      (batch name slots st rs).1 = BatchExit.done ∧
      (batch name slots st rs).2.1.started =
        st.started ++ (rs.take slots).filterMap Retrieval.delivery ∧
      (batch name slots st rs).2.1.queues = st.queues ++ List.replicate slots name ∧
      (batch name slots st rs).2.2 = rs.drop slots ∧
      (batch name slots st rs).2.1.sleeps = st.sleeps := by
  intro slots
  induction slots with
  | zero => intro st rs _ _ _; simp [batch]
  | succ slots ih =>
    intro st rs hlen hne hex
    cases rs with
    | nil => simp at hlen
    | cons r rs =>
      have hlen' : slots ≤ rs.length := by simpa using hlen
      have hne' : ∀ r ∈ rs.take slots, r ≠ Retrieval.empty :=
        fun x hx => hne x (by simp [List.take_succ_cons, hx])
      cases r with
      | error =>
        by_cases hl : st.errorCount + 1 > 10
        · simp [batch, hl] at hex
        · simp only [batch, hl, if_false] at hex ⊢
          obtain ⟨h1, h2, h3, h4, h5⟩ := ih _ rs hlen' hne' hex
          refine ⟨h1, ?_, ?_, ?_, h5⟩
          · rw [h2]; simp [List.take_succ_cons, Retrieval.delivery]
          · rw [h3]; simp [List.replicate_succ]
          · rw [h4]; simp
      | empty => exact absurd rfl (hne Retrieval.empty (by simp [List.take_succ_cons]))
      | message d =>
        simp only [batch] at hex ⊢
        obtain ⟨h1, h2, h3, h4, h5⟩ := ih _ rs hlen' hne' hex
        refine ⟨h1, ?_, ?_, ?_, h5⟩
        · rw [h2]; simp [List.take_succ_cons, Retrieval.delivery]
        · rw [h3]; simp [List.replicate_succ]
        · rw [h4]; simp

/-- C11 fails as stated: with `maxMessages = 3`, one failed retrieval and four
deliveries waiting, the first cycle of `Poller` makes three retrievals and starts two
deliveries, not three; the third delivery is started only in the next cycle, after the
sleep. -/
theorem failed_retrieval_takes_a_slot :
    Poller (batchConfig 3) (fun _ => false) oneErrorThenMessages 1 =
      (PollerExit.running,
        { errorCount := 0, queues := ["inbox", "inbox", "inbox"],
          started := [sampleDelivery "m1", sampleDelivery "m2"], sleeps := 1 }) ∧
    (Poller (batchConfig 3) (fun _ => false) oneErrorThenMessages 1).2.started.length ≠ 3 ∧
    (batch "inbox" 3 {} oneErrorThenMessages).2.2 =
      [Retrieval.message (sampleDelivery "m3"), Retrieval.message (sampleDelivery "m4")] ∧
    Poller (batchConfig 3) (fun _ => false) oneErrorThenMessages 2 =
      (PollerExit.blocked,
        { errorCount := 0, queues := ["inbox", "inbox", "inbox", "inbox", "inbox"],
          started := [sampleDelivery "m1", sampleDelivery "m2", sampleDelivery "m3",
            sampleDelivery "m4"], sleeps := 1 }) := by
  decide

/-- C11 (amended): within one poll cycle of `Poller` with `maxMessages = n`, a failed
retrieval consumes a batch slot.  For every cycle that starts with the flag unset, in
which the first `n` retrievals return an error or a delivery (messages remain
available) and the error ceiling is not passed, the cycle makes exactly `n` retrievals,
starts the deliveries among them and then sleeps: with `k` failed retrievals it starts
`n - k` deliveries.  The results after the first `n` are not read in this cycle: the
run goes on from the state after the sleep with exactly those results. -/
theorem cycle_error_consumes_slot (name : String) (n : Nat) (shutdown : Nat → Bool)
    (cycle : Nat) (st : PollerState) (rs : List Retrieval)
    (hs : shutdown cycle = false) (hlen : n ≤ rs.length)
    (havail : ∀ r ∈ rs.take n, r ≠ Retrieval.empty)
    (hceil : (pollerLoop name (n : Int) shutdown 1 cycle st rs).1 ≠ PollerExit.tooManyErrors) :
    (pollerLoop name (n : Int) shutdown 1 cycle st rs).1 = PollerExit.running ∧
    (pollerLoop name (n : Int) shutdown 1 cycle st rs).2.sleeps = st.sleeps + 1 ∧
    (pollerLoop name (n : Int) shutdown 1 cycle st rs).2.queues.length = st.queues.length + n ∧
    (pollerLoop name (n : Int) shutdown 1 cycle st rs).2.started =
      st.started ++ (rs.take n).filterMap Retrieval.delivery ∧
    (pollerLoop name (n : Int) shutdown 1 cycle st rs).2.started.length +
      (rs.take n).countP Retrieval.isError = st.started.length + n ∧
    (∀ fuel, pollerLoop name (n : Int) shutdown (fuel + 1) cycle st rs =
      pollerLoop name (n : Int) shutdown fuel (cycle + 1)
        (pollerLoop name (n : Int) shutdown 1 cycle st rs).2 (rs.drop n)) := by
  have hcount := deliveries_add_errors (rs.take n) havail
  have htake : (rs.take n).length = n := by simp [hlen]
  have hstep : pollerLoop name (n : Int) shutdown 1 cycle st rs =
      match batch name n st rs with
      | (BatchExit.tooManyErrors, st', _) => (PollerExit.tooManyErrors, st')
      | (BatchExit.blocked, st', _) => (PollerExit.blocked, st')
      | (BatchExit.done, st', _) => (PollerExit.running, { st' with sleeps := st'.sleeps + 1 }) := by
    simp only [pollerLoop, hs, Bool.false_eq_true, if_false, Int.toNat_ofNat]
  rw [hstep] at hceil ⊢
  have hb := batch_full name n st rs hlen havail
  rcases hr : batch name n st rs with ⟨ex, st', rs'⟩
  rw [hr] at hb hceil
  cases ex with
  | tooManyErrors => exact absurd rfl hceil
  | blocked => exact absurd (hb (by simp)).1 (by simp)
  | done =>
    obtain ⟨_, h2, h3, h4, h5⟩ := hb (by simp)
    have h2' : st'.started = st.started ++ (rs.take n).filterMap Retrieval.delivery := h2
    have h3' : st'.queues = st.queues ++ List.replicate n name := h3
    have h4' : rs' = rs.drop n := h4
    have h5' : st'.sleeps = st.sleeps := h5
    refine ⟨rfl, ?_, ?_, h2', ?_, ?_⟩
    · show st'.sleeps + 1 = st.sleeps + 1
      rw [h5']
    · show st'.queues.length = st.queues.length + n
      rw [h3']; simp
    · show st'.started.length + _ = _
      rw [h2', List.length_append]; omega
    · intro fuel
      show pollerLoop name (n : Int) shutdown (fuel + 1) cycle st rs =
        pollerLoop name (n : Int) shutdown fuel (cycle + 1)
          { st' with sleeps := st'.sleeps + 1 } (rs.drop n)
      rw [← h4']
      simp only [pollerLoop, hs, Bool.false_eq_true, if_false, Int.toNat_ofNat, hr]

/-- C11 (amended) at `maxMessages = 3` with one failed retrieval and deliveries
waiting: the first cycle starts `3 - 1 = 2` deliveries. -/
theorem cycle_error_consumes_slot_witness :
    3 ≤ oneErrorThenMessages.length ∧
    (∀ r ∈ oneErrorThenMessages.take 3, r ≠ Retrieval.empty) ∧
    (oneErrorThenMessages.take 3).countP Retrieval.isError = 1 ∧
    (pollerLoop "inbox" ((3 : Nat) : Int) (fun _ => false) 1 0 {}
        oneErrorThenMessages).2.started.length +
      (oneErrorThenMessages.take 3).countP Retrieval.isError =
      ({} : PollerState).started.length + 3 :=
  ⟨by decide, by decide, by decide,
    (cycle_error_consumes_slot "inbox" 3 (fun _ => false) 0 {} oneErrorThenMessages rfl
      (by decide) (by decide) (by decide)).2.2.2.2.1⟩

end QueueSmtpMailer
